import Mathlib

/-!
Verification development for the pipeline execution engine of `theAgency`
(`backend/app/services/pipeline_runner.py`, `handoff_extractor.py`,
`sse_broker.py`, and the schemas/models they use).

The Python code is shallowly embedded as pure Lean functions:

* Database rows (`Pipeline`, `Step`, `Handoff`, `Approval`, `AuditEvent`)
  become Lean structures; SQLAlchemy mutations become record updates threaded
  through an explicit `EngineState`.  Column timestamps (`started_at`,
  `finished_at`, `created_at`, `decided_at`) and audit `payload_json` blobs
  are not modelled: no property below concerns them.
* The OpenCode backend client is an oracle (`Nat → StepBehavior`), indexed by
  the number of agent calls issued so far; every call the engine issues is
  recorded in an observable call log (`BCall`), tagged with the step that
  issued it.  Session ids are modelled by that same call ordinal.
* `asyncio` waiting (approval gates, reminder timers) is modelled by a
  decision oracle: for each gate step, whether the human decision signal
  arrives before the reminder timer and what the decided `Approval` row
  contains afterwards.
* Handoff `metadata_json` is serialized/deserialized with pydantic in the
  source; serialization round-trips, so the blob is modelled as the
  `HandoffSchema` value itself (`none` = SQL NULL; a present blob is a
  non-empty JSON string, hence truthy).
* Python exceptions become an explicit `Option EngineExc` result:
  `StepExecutionError` and `OpenCodeClientError` are the two kinds the
  engine can let escape a step.
-/

namespace TheAgency

/-- Step status enum (`models.StepStatus`). -/
inductive StepStatus
  | pending | running | done | failed | skipped
deriving DecidableEq, Repr

/-- Pipeline status enum (`models.PipelineStatus`). -/
inductive PipelineStatus
  | pending | running | waiting_for_approval | done | failed
deriving DecidableEq, Repr

/-- Approval status enum (`models.ApprovalStatus`). -/
inductive ApprovalStatus
  | pending | approved | rejected
deriving DecidableEq, Repr

/-- Python truthiness of an optional string: `None` and `""` are falsy. -/
def pyTruthy : Option String → Bool
  | none => false
  | some s => !(s == "")

/-- The whitespace characters of Python's `str.strip` family (the ASCII
ones, which are the only ones the engine's inputs contain). -/
def isPySpace (c : Char) : Bool :=
  c == ' ' || c == '\t' || c == '\n' || c == '\r' || c == '\x0b' || c == '\x0c'

/-- Python `str.strip()`: drop whitespace from both ends. -/
def pyStrip (s : String) : String :=
  String.mk (((s.toList.dropWhile isPySpace).reverse.dropWhile isPySpace).reverse)

/-- Python `str.rstrip()`: drop trailing whitespace. -/
def pyRstrip (s : String) : String :=
  String.mk ((s.toList.reverse.dropWhile isPySpace).reverse)

/-- Python `str.startswith("#")`. -/
def startsWithHash (s : String) : Bool :=
  match s.toList with
  | '#' :: _ => true
  | _ => false

/-- Split a character list at every occurrence of `sep` (the semantics of
Python `str.split(sep)` on the character level). -/
def splitListOn (sep : Char) : List Char → List (List Char)
  | [] => [[]]
  | c :: rest =>
    match splitListOn sep rest with
    | [] => if c == sep then [[], []] else [[c]]
    | h :: t => if c == sep then [] :: h :: t else (c :: h) :: t

/-- `schemas.handoff.HandoffSchema`: structured handoff data; all fields
optional. -/
structure HandoffSchema where
  what_was_done : Option String := none
  decisions_made : Option String := none
  open_questions : Option String := none
  next_agent_context : Option String := none
deriving DecidableEq, Repr

/-- `HandoffSchema.is_empty`: `not any(...)` over the four fields, where
Python `any` treats `None` and `""` as falsy. -/
def HandoffSchema.is_empty (h : HandoffSchema) : Bool :=
  !(pyTruthy h.what_was_done || pyTruthy h.decisions_made ||
    pyTruthy h.open_questions || pyTruthy h.next_agent_context)

/-- `HandoffSchema.to_context_header`: renders the Markdown context header
fed to the next agent.  `agent_name` is included when truthy; fields that are
`None`/empty are omitted; result is `"\n".join(lines).rstrip()`. -/
def HandoffSchema.to_context_header (h : HandoffSchema) (agent_name : Option String) : String :=
  let heading :=
    if pyTruthy agent_name then
      "## Handoff from previous step (" ++ agent_name.getD "" ++ ")"
    else
      "## Handoff from previous step"
  let lines := [heading, ""]
  let lines := lines ++
    (if pyTruthy h.what_was_done then
      ["**What was done**: " ++ h.what_was_done.getD "", ""] else [])
  let lines := lines ++
    (if pyTruthy h.decisions_made then
      ["**Decisions made**:", h.decisions_made.getD "", ""] else [])
  let lines := lines ++
    (if pyTruthy h.open_questions then
      ["**Open questions**:", h.open_questions.getD "", ""] else [])
  let lines := lines ++
    (if pyTruthy h.next_agent_context then
      ["**Your task**: " ++ h.next_agent_context.getD "", ""] else [])
  pyRstrip (String.intercalate "\n" lines)

namespace HandoffExtractor

/-- The four recognized section keys of `handoff_extractor._FIELD_KEYS`
(values of that dict; its keys are the normalized heading texts below). -/
inductive FieldKey
  | what_was_done | decisions_made | open_questions | next_agent_context
deriving DecidableEq, Repr

/-- `handoff_extractor._normalize`: lower-case, then keep only the ASCII
characters `a-z0-9`. -/
def normalize (text : String) : String :=
  String.mk ((text.toList.map Char.toLower).filter
    (fun c => (97 ≤ c.toNat && c.toNat ≤ 122) || (48 ≤ c.toNat && c.toNat ≤ 57)))

/-- Lookup in `_FIELD_KEYS` by normalized heading text. -/
def fieldKeyOf (normalized : String) : Option FieldKey :=
  if normalized == "whatwasdone" then some .what_was_done
  else if normalized == "decisionsmade" then some .decisions_made
  else if normalized == "openquestions" then some .open_questions
  else if normalized == "nextagentcontext" then some .next_agent_context
  else none

/-- Read a field of the accumulating `fields` dict (absent key = `none`). -/
def getField (f : HandoffSchema) : FieldKey → Option String
  | .what_was_done => f.what_was_done
  | .decisions_made => f.decisions_made
  | .open_questions => f.open_questions
  | .next_agent_context => f.next_agent_context

/-- Write a field of the accumulating `fields` dict. -/
def setField (f : HandoffSchema) : FieldKey → String → HandoffSchema
  | .what_was_done, v => { f with what_was_done := some v }
  | .decisions_made, v => { f with decisions_made := some v }
  | .open_questions, v => { f with open_questions := some v }
  | .next_agent_context, v => { f with next_agent_context := some v }

/-- Parser state of `HandoffExtractor.extract`'s line loop: the `fields`
dict (absent key = `none`), `current_field`, and `current_lines`. -/
structure ExtState where
  fields : HandoffSchema := {}
  current : Option FieldKey := none
  curLines : List String := []
deriving DecidableEq, Repr

/-- Section flush: `if current_field and current_field not in fields:
fields[current_field] = "\n".join(current_lines).strip()`. -/
def flushSection (fields : HandoffSchema) (current : Option FieldKey)
    (curLines : List String) : HandoffSchema :=
  match current with
  | none => fields
  | some k =>
    if (getField fields k).isNone then
      setField fields k (pyStrip (String.intercalate "\n" curLines))
    else fields

/-- Python `str.lstrip("#")`: drop leading `#` characters. -/
def lstripHashes (s : String) : String :=
  String.mk (s.toList.dropWhile (· == '#'))

/-- One iteration of the `for line in content_md.splitlines()` loop. -/
def processLine (st : ExtState) (line : String) : ExtState :=
  if startsWithHash line then
    let fields := flushSection st.fields st.current st.curLines
    let headingText := pyStrip (lstripHashes line)
    let current : Option FieldKey :=
      match fieldKeyOf (normalize headingText) with
      | some k => if (getField fields k).isNone then some k else none
      | none => none
    { fields := fields, current := current, curLines := [] }
  else if st.current.isSome then
    { st with curLines := st.curLines ++ [line] }
  else
    st

/-- The whole line loop. -/
def processLines (st : ExtState) (lines : List String) : ExtState :=
  lines.foldl processLine st

/-- Python `str.splitlines` for inputs whose only line separator is `"\n"`
(the engine feeds it agent Markdown): split on `"\n"`, with no empty element
for a trailing newline and `[]` for the empty string. -/
def splitLines (s : String) : List String :=
  if s == "" then []
  else
    let parts := (splitListOn '\n' s.toList).map String.mk
    if parts.getLast? == some "" then parts.dropLast else parts

/-- `HandoffExtractor.extract` on an already-split line list: run the loop,
flush the last section, return `None` when the dict is empty or the schema
is empty. -/
def extractLines (lines : List String) : Option HandoffSchema :=
  let st := processLines {} lines
  let fields := flushSection st.fields st.current st.curLines
  if fields == ({} : HandoffSchema) then none
  else if fields.is_empty then none
  else some fields

/-- `HandoffExtractor.extract`: `None` for empty/whitespace-only input, else
heading-based parsing of the Markdown lines. -/
def extract (content_md : String) : Option HandoffSchema :=
  if content_md == "" || pyStrip content_md == "" then none
  else extractLines (splitLines content_md)

end HandoffExtractor

/-! ## Data model rows (`models.py`), as seen by the pipeline runner -/

/-- `models.Handoff` row: the durable record of one step's output.
`metadata_json` is the serialized `HandoffSchema` (`none` = NULL). -/
structure Handoff where
  id : Nat
  content_md : String
  metadata_json : Option HandoffSchema
deriving DecidableEq, Repr

/-- `models.Step` row, with its `handoffs` relationship loaded. -/
structure Step where
  id : Nat
  pipeline_id : Nat
  agent_name : String
  order_index : Nat
  status : StepStatus
  model : Option String
  error_message : Option String
  handoffs : List Handoff
deriving DecidableEq, Repr

/-- `models.Pipeline` row (the fields the runner reads or writes). -/
structure Pipeline where
  id : Nat
  prompt : String
  working_dir : Option String
  status : PipelineStatus
deriving DecidableEq, Repr

/-- `models.AuditEvent` row (payload blobs not modelled). -/
structure AuditEvent where
  pipeline_id : Nat
  step_id : Option Nat
  event_type : String
deriving DecidableEq, Repr

/-- `models.Approval` row. -/
structure Approval where
  step_id : Nat
  status : ApprovalStatus
  comment : Option String
  decided_by : Option String
deriving DecidableEq, Repr

/-- `schemas.registry.AgentProfile` (the fields the runner reads). -/
structure AgentProfile where
  name : String
  opencode_agent : String
  default_model : Option String
  system_prompt_additions : String
deriving DecidableEq, Repr

/-- `schemas.registry.PipelineStep`: the discriminated union of
`AgentStep` and `ApprovalStep` (only the fields the runner reads). -/
inductive TemplateStep
  | agentStep (agent : String) (model : Option String)
  | approvalStep (remind_after_hours : Option Nat)
deriving DecidableEq, Repr

/-- `pipeline_runner.APPROVAL_SENTINEL`. -/
def APPROVAL_SENTINEL : String := "__approval__"

/-! ## Backend and decision oracles -/

/-- One typed content part of the backend's `MessageResponse`
(`opencode_models.Part`, the fields `_extract_output` reads). -/
structure Part where
  type : String
  content : Option String
deriving DecidableEq, Repr

/-- Outcome of the `send_message` call of one step, supplied by the backend
oracle: a reply, an `OpenCodeClientError`, or exceeding the step timeout. -/
inductive SendOutcome
  | success (parts : List Part)
  | clientError (msg : String)
  | timeout
deriving DecidableEq, Repr

/-- How the backend behaves for one `run_step` invocation.
`createError = some m`: `create_session` raises `OpenCodeClientError m`.
`abortError = some m`: the `abort_session` issued on timeout raises
`OpenCodeClientError m`.  `delete_session` failures are caught and only
logged by the runner, so they are not modelled. -/
structure StepBehavior where
  createError : Option String := none
  send : SendOutcome := .success []
  abortError : Option String := none

/-- External human decision for one approval-gate step:
whether the wake signal fires before the reminder timer would, and the
content of the `Approval` row once decided. -/
structure ApprovalDecision where
  arrivesBeforeReminder : Bool := true
  status : ApprovalStatus := .approved
  comment : Option String := none
  decided_by : Option String := none

/-- An observable backend call issued by the runner, tagged with the id of
the `Step` whose execution issued it (recoverable in the source from the
session title `f"{step.agent_name}-{step.id}"`). -/
inductive BCall
  | createSession (stepId : Nat) (title : String)
  | sendMessage (stepId : Nat) (sessionId : Nat) (prompt : String)
      (agent : String) (model : Option String)
  | abortSession (stepId : Nat) (sessionId : Nat)
  | deleteSession (stepId : Nat) (sessionId : Nat)
deriving DecidableEq, Repr

/-- The step id a call was issued for. -/
def BCall.stepId : BCall → Nat
  | .createSession i _ => i
  | .sendMessage i _ _ _ _ => i
  | .abortSession i _ => i
  | .deleteSession i _ => i

/-- The step id of a `sendMessage` call, `none` for the other calls. -/
def BCall.sendStepId : BCall → Option Nat
  | .sendMessage i _ _ _ _ => some i
  | _ => none

/-- The prompt of a `sendMessage` call, `none` for the other calls. -/
def BCall.sendPrompt : BCall → Option String
  | .sendMessage _ _ p _ _ => some p
  | _ => none

/-- The exceptions the engine can let escape one step's execution:
`StepExecutionError` (raised by `run_step` itself) and `OpenCodeClientError`
(a backend error `run_step` did not convert). -/
inductive EngineExc
  | stepExecutionError (msg : String)
  | openCodeClientError (msg : String)
deriving DecidableEq, Repr

/-- The mutable state one engine invocation threads along: the owning
`Pipeline` row, the appended `Approval`/`AuditEvent` rows, the backend call
log, the handoff autoincrement counter, the number of agent calls issued so
far (which indexes the backend oracle and doubles as the session id), and
the runner's `_current_session_id` field. -/
structure EngineState where
  pipeline : Pipeline
  approvals : List Approval := []
  audits : List AuditEvent := []
  calls : List BCall := []
  nextHandoffId : Nat := 1
  agentCallCount : Nat := 0
  current_session_id : Option Nat := none
deriving Repr

/-- A fresh engine state for an execution of `pipeline`. -/
def initState (pipeline : Pipeline) : EngineState := { pipeline := pipeline }

/-- Static configuration of one `PipelineRunner`: the backend oracle
(indexed by agent-call ordinal), the decision oracle (indexed by gate step
id), the registry, and the configured step timeout in seconds. -/
structure RunnerConfig where
  backend : Nat → StepBehavior
  decisions : Nat → ApprovalDecision
  registry : String → Option AgentProfile
  step_timeout : Nat := 600

/-! ## `PipelineRunner` helpers -/

/-- Python `a or b` on optional strings (`None` and `""` are falsy), as in
`step.model or agent_profile.default_model`. -/
def pyOr (a b : Option String) : Option String :=
  if pyTruthy a then a else b

/-- `PipelineRunner._build_prompt`: working-directory preamble (when the
working dir is not `None`), then non-empty system-prompt additions, then the
prompt, joined by blank lines. -/
def build_prompt (prompt : String) (profile : AgentProfile)
    (working_dir : Option String) : String :=
  let parts : List String :=
    (match working_dir with
     | some wd =>
       ["Working directory: " ++ wd ++
        " — treat this as the project root for all file operations."]
     | none => [])
  let parts := parts ++
    (if profile.system_prompt_additions == "" then []
     else [profile.system_prompt_additions])
  let parts := parts ++ [prompt]
  String.intercalate "\n\n" parts

/-- `PipelineRunner._extract_output`: concatenate the contents of all
text-typed parts; empty string (plus a logged warning) when there are none. -/
def extract_output (parts : List Part) : String :=
  let texts := parts.filterMap (fun p => if p.type == "text" then p.content else none)
  if texts.isEmpty then "" else String.intercalate "\n" texts

/-- `PipelineRunner._persist_success`: run the extractor, append the
`Handoff` row, mark the step `done`, write the `handoff_created` audit event
and, when extraction failed, the `handoff_extraction_failed` event. -/
def persist_success (step : Step) (output_text : String) (st : EngineState) :
    Step × EngineState × Option HandoffSchema :=
  let handoff_schema := HandoffExtractor.extract output_text
  let handoff : Handoff :=
    { id := st.nextHandoffId, content_md := output_text,
      metadata_json := handoff_schema }
  let step' := { step with status := .done, handoffs := step.handoffs ++ [handoff] }
  let audits := st.audits ++
    [{ pipeline_id := step.pipeline_id, step_id := some step.id,
       event_type := "handoff_created" }] ++
    (if handoff_schema.isNone then
      [{ pipeline_id := step.pipeline_id, step_id := some step.id,
         event_type := "handoff_extraction_failed" }]
     else [])
  (step', { st with nextHandoffId := st.nextHandoffId + 1, audits := audits },
   handoff_schema)

/-- `PipelineRunner._persist_failure`: mark the step `failed`, record the
error message, write a `step_failed` audit event. -/
def persist_failure (step : Step) (error : Option String) (st : EngineState) :
    Step × EngineState :=
  let step' := { step with status := .failed, error_message := error }
  (step',
   { st with audits := st.audits ++
       [{ pipeline_id := step.pipeline_id, step_id := some step.id,
          event_type := "step_failed" }] })

/-- `PipelineRunner._mark_pipeline_failed` (without the optional step). -/
def mark_pipeline_failed (st : EngineState) : EngineState :=
  { st with pipeline := { st.pipeline with status := .failed } }

/-! ## `PipelineRunner.run_step` -/

/-- Result of one `run_step` call: the updated `Step` row, the updated
state, and either the `(output_text, handoff_schema)` return value or the
escaped exception. -/
structure RunStepOut where
  step : Step
  st : EngineState
  result : Except EngineExc (String × Option HandoffSchema)

/-- The `finally` block of `run_step`: clear `_current_session_id` and issue
the best-effort `delete_session` (whose failure is caught and logged). -/
def runStepCleanup (stepId sid : Nat) (st : EngineState) : EngineState :=
  { st with current_session_id := none,
            calls := st.calls ++ [.deleteSession stepId sid] }

/-- `PipelineRunner.run_step`.  `create_session` sits before the
`try`/`finally`, so a creation error escapes as a raw `OpenCodeClientError`
with no cleanup and no status change.  Afterwards: send the built prompt; on
success persist the handoff and return; on a client error persist the
failure and raise `StepExecutionError`; on timeout issue `abort_session`
(unguarded: its failure escapes as a raw `OpenCodeClientError`), else
persist the timeout failure and raise `StepExecutionError`.  The `finally`
cleanup runs for every path inside the `try`. -/
def run_step (cfg : RunnerConfig) (step : Step) (profile : AgentProfile)
    (prompt : String) (model : Option String) (working_dir : Option String)
    (st : EngineState) : RunStepOut :=
  let b := cfg.backend st.agentCallCount
  let sid := st.agentCallCount
  let title := step.agent_name ++ "-" ++ toString step.id
  let st := { st with calls := st.calls ++ [.createSession step.id title],
                       agentCallCount := st.agentCallCount + 1 }
  match b.createError with
  | some msg => { step := step, st := st, result := .error (.openCodeClientError msg) }
  | none =>
    let st := { st with current_session_id := some sid }
    let full_prompt := build_prompt prompt profile working_dir
    let st := { st with calls := st.calls ++
      [.sendMessage step.id sid full_prompt profile.opencode_agent model] }
    match b.send with
    | .success parts =>
      let output_text := extract_output parts
      let (step', st, handoff_schema) := persist_success step output_text st
      { step := step', st := runStepCleanup step.id sid st,
        result := .ok (output_text, handoff_schema) }
    | .clientError msg =>
      let (step', st) := persist_failure step (some msg) st
      { step := step', st := runStepCleanup step.id sid st,
        result := .error (.stepExecutionError
          ("Step " ++ toString step.id ++ " failed: " ++ msg)) }
    | .timeout =>
      let st := { st with calls := st.calls ++ [.abortSession step.id sid] }
      match b.abortError with
      | some amsg =>
        { step := step, st := runStepCleanup step.id sid st,
          result := .error (.openCodeClientError amsg) }
      | none =>
        let (step', st) := persist_failure step
          (some ("Step timed out after " ++ toString cfg.step_timeout ++ "s")) st
        { step := step', st := runStepCleanup step.id sid st,
          result := .error (.stepExecutionError
            ("Step " ++ toString step.id ++ " timed out after " ++
             toString cfg.step_timeout ++ "s")) }

/-! ## `PipelineRunner._execute_approval_step` -/

/-- First part of `_execute_approval_step`: mark the gate step `running`,
append a pending `Approval` row and the `approval_requested` audit event,
set the pipeline to `waiting_for_approval`, commit. -/
def approvalRequestPhase (step : Step) (st : EngineState) : Step × EngineState :=
  let step' := { step with status := .running }
  (step',
   { st with
       approvals := st.approvals ++
         [{ step_id := step.id, status := .pending, comment := none,
            decided_by := none }],
       audits := st.audits ++
         [{ pipeline_id := st.pipeline.id, step_id := some step.id,
            event_type := "approval_requested" }],
       pipeline := { st.pipeline with status := .waiting_for_approval } })

/-- Waiting part of `_execute_approval_step`: with no reminder configured,
or when the decision signal fires before the timer, nothing is recorded;
when the timer elapses first, exactly one `approval_reminder` audit event is
written (the pipeline is not auto-rejected) and the engine waits again with
no further timeout. -/
def approvalReminderPhase (step : Step) (remind_after_hours : Option Nat)
    (d : ApprovalDecision) (st : EngineState) : EngineState :=
  match remind_after_hours with
  | none => st
  | some _ =>
    if d.arrivesBeforeReminder then st
    else
      { st with audits := st.audits ++
          [{ pipeline_id := st.pipeline.id, step_id := some step.id,
             event_type := "approval_reminder" }] }

/-- Final part of `_execute_approval_step`: re-read the `Approval` row (it
was mutated by the external actor, modelled by writing the decision into the
row), then branch on the decided status: `approved` marks the step `done`,
sets the pipeline back to `running`, writes `approval_granted` and returns
the prompt (with the truthy comment appended in brackets); `rejected` writes
`approval_rejected` and marks step and pipeline `failed`, returning the stop
sentinel `none`; any other status also marks step and pipeline `failed`. -/
def approvalDecidePhase (step : Step) (current_prompt : String)
    (d : ApprovalDecision) (st : EngineState) :
    Step × EngineState × Option String :=
  let st := { st with approvals := st.approvals.map (fun a =>
      if a.step_id == step.id then
        { a with status := d.status, comment := d.comment,
                 decided_by := d.decided_by }
      else a) }
  match d.status with
  | .approved =>
    let step' := { step with status := .done }
    let st := { st with
        pipeline := { st.pipeline with status := .running },
        audits := st.audits ++
          [{ pipeline_id := st.pipeline.id, step_id := some step.id,
             event_type := "approval_granted" }] }
    let ret :=
      if pyTruthy d.comment then
        current_prompt ++ "\n\n[Approval note: " ++ d.comment.getD "" ++ "]"
      else current_prompt
    (step', st, some ret)
  | .rejected =>
    let st := { st with audits := st.audits ++
        [{ pipeline_id := st.pipeline.id, step_id := some step.id,
           event_type := "approval_rejected" }] }
    let step' := { step with status := .failed }
    (step', mark_pipeline_failed st, none)
  | .pending =>
    let step' := { step with status := .failed }
    (step', mark_pipeline_failed st, none)

/-- `PipelineRunner._execute_approval_step`, composed from its three phases.
The per-pipeline `asyncio.Event` lookup (and the logged fallback event when
none was registered) has no observable effect here: both branches end up
waiting for the external decision, which the decision oracle supplies. -/
def execute_approval_step (cfg : RunnerConfig) (step : Step)
    (current_prompt : String) (remind_after_hours : Option Nat)
    (st : EngineState) : Step × EngineState × Option String :=
  let d := cfg.decisions step.id
  let (step, st) := approvalRequestPhase step st
  let st := approvalReminderPhase step remind_after_hours d st
  approvalDecidePhase step current_prompt d st

/-! ## `PipelineRunner._execute_steps` and the pipeline entry points -/

/-- Result of `_execute_steps`: the updated `Step` rows (same order as the
input), the final state, and the exception that escaped, if any (Python
`return`s are `none`; only an uncaught exception is `some`). -/
structure ExecOut where
  steps : List Step
  st : EngineState
  exc : Option EngineExc

/-- The `remind_after_hours` read for the approval gate at index `i`:
present only when template steps were supplied, the index is in range and
the template step is an `ApprovalStep` (a mismatch is logged and treated as
no reminder). -/
def remindFor (template_steps : Option (List TemplateStep)) (i : Nat) : Option Nat :=
  match template_steps with
  | none => none
  | some ts =>
    match ts.get? i with
    | some (.approvalStep r) => r
    | some (.agentStep _ _) => none
    | none => none

/-- `PipelineRunner._execute_steps`, by recursion over the step rows with
their running index `i`.  An approval gate delegates to
`execute_approval_step` and stops on rejection (pipeline already failed
there).  Otherwise the step is marked `running`; an unresolvable agent marks
step and pipeline `failed` and stops; `run_step` is executed with
`step.model or agent_profile.default_model` and the pipeline's working dir;
on success the next prompt is the context header (structured extraction) or
the raw output; a `StepExecutionError` marks the pipeline `failed` and
stops; any other exception propagates.  When the loop finishes, the
pipeline is marked `done`. -/
def execute_steps (cfg : RunnerConfig) (i : Nat) (steps : List Step)
    (current_prompt : String) (template_steps : Option (List TemplateStep))
    (st : EngineState) : ExecOut :=
  match steps with
  | [] =>
    { steps := [],
      st := { st with pipeline := { st.pipeline with status := .done } },
      exc := none }
  | step :: rest =>
    if step.agent_name == APPROVAL_SENTINEL then
      let remind := remindFor template_steps i
      let (step', st', result_prompt) :=
        execute_approval_step cfg step current_prompt remind st
      match result_prompt with
      | none => { steps := step' :: rest, st := st', exc := none }
      | some p =>
        let out := execute_steps cfg (i + 1) rest p template_steps st'
        { out with steps := step' :: out.steps }
    else
      let step := { step with status := .running }
      match cfg.registry step.agent_name with
      | none =>
        { steps := { step with status := .failed } :: rest,
          st := mark_pipeline_failed st, exc := none }
      | some agent_profile =>
        let out := run_step cfg step agent_profile current_prompt
          (pyOr step.model agent_profile.default_model)
          st.pipeline.working_dir st
        match out.result with
        | .ok (output_text, handoff_schema) =>
          let next_prompt :=
            match handoff_schema with
            | some s => s.to_context_header (some step.agent_name)
            | none => output_text
          let out' := execute_steps cfg (i + 1) rest next_prompt template_steps out.st
          { out' with steps := out.step :: out'.steps }
        | .error (.stepExecutionError _) =>
          { steps := out.step :: rest, st := mark_pipeline_failed out.st,
            exc := none }
        | .error (.openCodeClientError m) =>
          { steps := out.step :: rest, st := out.st,
            exc := some (.openCodeClientError m) }

/-- Python `sorted(steps, key=lambda s: s.order_index)` — a stable sort by
`order_index`, modelled by insertion sort (stable sorts by the same key
agree). -/
def sortSteps (steps : List Step) : List Step :=
  List.insertionSort (fun a b => a.order_index ≤ b.order_index) steps

/-- `PipelineRunner.run_pipeline`: load the pipeline's step rows, sort them
by `order_index`, and execute them with the pipeline's prompt and the
template's step configurations. -/
def run_pipeline (cfg : RunnerConfig) (step_rows : List Step)
    (template : List TemplateStep) (st : EngineState) : ExecOut :=
  execute_steps cfg 0 (sortSteps step_rows) st.pipeline.prompt (some template) st

/-- Python `max(step.handoffs, key=lambda h: h.id)` (first maximum wins; ids
are a primary key, so ties cannot occur). -/
def latestHandoff (hs : List Handoff) : Option Handoff :=
  hs.foldl (fun acc h =>
    match acc with
    | none => some h
    | some m => if h.id > m.id then some h else some m) none

/-- The resume-prompt reconstruction loop of `resume_pipeline`: walk the
sorted steps; for each `done` step with at least one `Handoff`, take its
most recently created handoff and replace the current prompt with the
rendered context header when the handoff has structured metadata (a stored
blob is a non-empty string, hence truthy), else with its raw content.
Starts from the pipeline's original prompt. -/
def resumePrompt (steps : List Step) (initial : String) : String :=
  steps.foldl (fun current_prompt step =>
    if step.status == StepStatus.done && !step.handoffs.isEmpty then
      match latestHandoff step.handoffs with
      | some latest =>
        match latest.metadata_json with
        | some schema => schema.to_context_header (some step.agent_name)
        | none => latest.content_md
      | none => current_prompt
    else current_prompt) initial

/-- `PipelineRunner.resume_pipeline`: sort the loaded step rows, derive the
resume prompt, and either mark the pipeline `done` directly when no step is
left (zero backend calls) or execute the remaining non-`done` steps with no
template.  Returns the updated remaining rows. -/
def resume_pipeline (cfg : RunnerConfig) (step_rows : List Step)
    (st : EngineState) : ExecOut :=
  let steps := sortSteps step_rows
  let current_prompt := resumePrompt steps st.pipeline.prompt
  let remaining := steps.filter (fun s => !(s.status == StepStatus.done))
  if remaining.isEmpty then
    { steps := remaining,
      st := { st with pipeline := { st.pipeline with status := .done } },
      exc := none }
  else
    execute_steps cfg 0 remaining current_prompt none st

/-- Modelled from the spec's words, for comparison with `resumePrompt`
(claim C8): "determine the most recent Handoff among `done` steps (ties
broken by highest identity), use its structured-context-header if present
else its raw text else the Pipeline's original prompt".  Identity order is
creation order for autoincrement ids, so the most recent handoff among all
`done` steps is the one with the highest id overall. -/
def specResumePrompt (steps : List Step) (initial : String) : String :=
  let doneHandoffs :=
    (steps.filter (fun s => s.status == StepStatus.done)).foldl
      (fun acc s => acc ++ s.handoffs.map (fun h => (s.agent_name, h))) []
  let mostRecent := doneHandoffs.foldl (fun acc p =>
    match acc with
    | none => some p
    | some m => if p.2.id > m.2.id then some p else some m) none
  match mostRecent with
  | none => initial
  | some (agent_name, h) =>
    match h.metadata_json with
    | some schema => schema.to_context_header (some agent_name)
    | none => h.content_md

/-! ## `SseBroker` (`services/sse_broker.py`) -/

namespace SseBroker

/-- `sse_broker._QUEUE_MAX_SIZE`. -/
def QUEUE_MAX_SIZE : Nat := 512

/-- An item on a subscriber queue: a serialised event frame or the `STOP`
shutdown sentinel. -/
inductive QItem
  | stop
  | msg (frame : String)
deriving DecidableEq, Repr

/-- One subscriber's bounded `asyncio.Queue` (its current contents). -/
structure Subscriber where
  items : List QItem
deriving DecidableEq, Repr

/-- `asyncio.Queue.put_nowait` on a queue bounded by `_QUEUE_MAX_SIZE`:
append when below capacity, else raise `QueueFull` (reported as `false`). -/
def put_nowait (q : Subscriber) (x : QItem) : Subscriber × Bool :=
  if q.items.length < QUEUE_MAX_SIZE then ({ items := q.items ++ [x] }, true)
  else (q, false)

/-- The broker's state: the registered subscriber queues, whether the
background `_run` task is live, and the client's stop-streaming event. -/
structure Broker where
  subscribers : List Subscriber
  taskRunning : Bool
  stopStreamingRequested : Bool
deriving DecidableEq, Repr

/-- `SseBroker._on_event`: serialise the frame and `put_nowait` it on every
subscriber queue; a full queue drops the frame for that subscriber only
(logged). -/
def on_event (b : Broker) (frame : String) : Broker :=
  { b with subscribers := b.subscribers.map (fun q => (put_nowait q (.msg frame)).1) }

/-- `SseBroker.stop`: signal the client to stop streaming, cancel and await
the background task, then `put_nowait` the `STOP` sentinel on every
subscriber queue with `QueueFull` suppressed (a full queue receives no
sentinel). -/
def stop (b : Broker) : Broker :=
  { stopStreamingRequested := true,
    taskRunning := false,
    subscribers := b.subscribers.map (fun q => (put_nowait q .stop).1) }

/-- The consumer loop of `SseBroker.event_stream` over a queue's remaining
contents, once no producer is left (the background task was cancelled):
`await q.get()` on an exhausted queue blocks forever (`false`), the `STOP`
sentinel breaks the loop (`true`), and any other item is yielded and the
loop continues. -/
def readLoopTerminates : List QItem → Bool
  | [] => false
  | .stop :: _ => true
  | .msg _ :: rest => readLoopTerminates rest

/-- A broker with a single observer whose queue is already full. -/
def fullBroker : Broker :=
  { subscribers := [{ items := List.replicate QUEUE_MAX_SIZE (.msg "e") }],
    taskRunning := true,
    stopStreamingRequested := false }

/-- Witness broker: one observer with a single frame queued. -/
def witnessBroker : Broker :=
  { subscribers := [{ items := [.msg "a"] }],
    taskRunning := true,
    stopStreamingRequested := false }

end SseBroker

/-! ## Derived state descriptions and hypothesis predicates

Named descriptions of the engine state after one step of `_execute_steps`,
used to phrase its per-branch unfolding lemmas compactly, plus the
hypothesis predicates of the engine theorems and the concrete fixtures of
the closed evaluation theorems and witnesses. -/

/-- The pending `Approval` row created at an approval gate. -/
def pendingApprovalRow (stepId : Nat) : Approval :=
  { step_id := stepId, status := .pending, comment := none, decided_by := none }

/-- The `approval_reminder` audit events written at a gate: exactly one when
a reminder interval is configured and the decision signal did not fire
before the timer, none otherwise. -/
def reminderAudits (pipelineId stepId : Nat) (remind : Option Nat)
    (d : ApprovalDecision) : List AuditEvent :=
  match remind with
  | none => []
  | some _ =>
    if d.arrivesBeforeReminder then []
    else [{ pipeline_id := pipelineId, step_id := some stepId,
            event_type := "approval_reminder" }]

/-- The `Approval` rows after the external decision for `stepId` is folded
into the freshly appended pending row. -/
def decidedApprovals (approvals : List Approval) (stepId : Nat)
    (d : ApprovalDecision) : List Approval :=
  (approvals ++ [pendingApprovalRow stepId]).map (fun a =>
    if a.step_id == stepId then
      { a with status := d.status, comment := d.comment, decided_by := d.decided_by }
    else a)

/-- The audit trail a gate appends: `approval_requested`, the optional
reminder, then the decision event `last`. -/
def gateAuditTrail (pipelineId stepId : Nat) (remind : Option Nat)
    (d : ApprovalDecision) (last : String) : List AuditEvent :=
  [{ pipeline_id := pipelineId, step_id := some stepId,
     event_type := "approval_requested" }] ++
  reminderAudits pipelineId stepId remind d ++
  [{ pipeline_id := pipelineId, step_id := some stepId, event_type := last }]

/-- Engine state after an approved gate: decided approval rows, the gate's
audit trail ending in `approval_granted`, pipeline back to `running`; no
calls, no handoffs, no agent-call slot consumed. -/
def gateApprovedState (st : EngineState) (stepId : Nat) (remind : Option Nat)
    (d : ApprovalDecision) : EngineState :=
  { st with
      approvals := decidedApprovals st.approvals stepId d,
      audits := st.audits ++ gateAuditTrail st.pipeline.id stepId remind d "approval_granted",
      pipeline := { st.pipeline with status := .running } }

/-- Engine state after a rejected gate: decided approval rows, the gate's
audit trail ending in `approval_rejected`, pipeline `failed`. -/
def gateRejectedState (st : EngineState) (stepId : Nat) (remind : Option Nat)
    (d : ApprovalDecision) : EngineState :=
  { st with
      approvals := decidedApprovals st.approvals stepId d,
      audits := st.audits ++ gateAuditTrail st.pipeline.id stepId remind d "approval_rejected",
      pipeline := { st.pipeline with status := .failed } }

/-- The prompt an approved gate hands to the next step: unchanged, or with
the truthy decision comment appended in brackets. -/
def approvedPrompt (p : String) (d : ApprovalDecision) : String :=
  if pyTruthy d.comment then
    p ++ "\n\n[Approval note: " ++ d.comment.getD "" ++ "]"
  else p

/-- The reply text of one successful agent step. -/
def stepOutput (parts : List Part) : String := extract_output parts

/-- The extractor's result on one successful agent step's reply. -/
def stepSchema (parts : List Part) : Option HandoffSchema :=
  HandoffExtractor.extract (extract_output parts)

/-- The prompt chained into the step after a successful agent step: the
rendered context header when extraction succeeded, else the raw reply. -/
def chainedPrompt (agent_name : String) (parts : List Part) : String :=
  match stepSchema parts with
  | some schema => schema.to_context_header (some agent_name)
  | none => stepOutput parts

/-- The create/send/delete call triple of one successful (or cleanly
failing) agent step. -/
def agentCallTriple (s : Step) (prof : AgentProfile) (p : String)
    (st : EngineState) : List BCall :=
  [.createSession s.id (s.agent_name ++ "-" ++ toString s.id),
   .sendMessage s.id st.agentCallCount (build_prompt p prof st.pipeline.working_dir)
     prof.opencode_agent (pyOr s.model prof.default_model),
   .deleteSession s.id st.agentCallCount]

/-- The audit events `_persist_success` appends. -/
def successAudits (s : Step) (parts : List Part) : List AuditEvent :=
  [{ pipeline_id := s.pipeline_id, step_id := some s.id,
     event_type := "handoff_created" }] ++
  (if (stepSchema parts).isNone then
    [{ pipeline_id := s.pipeline_id, step_id := some s.id,
       event_type := "handoff_extraction_failed" }]
   else [])

/-- The step row after a successful agent step: `done`, with the new
`Handoff` appended. -/
def doneStep (s : Step) (handoffId : Nat) (parts : List Part) : Step :=
  { s with status := .done,
           handoffs := s.handoffs ++
             [{ id := handoffId, content_md := stepOutput parts,
                metadata_json := stepSchema parts }] }

/-- Engine state after a successful agent step. -/
def agentSuccessState (st : EngineState) (s : Step) (prof : AgentProfile)
    (p : String) (parts : List Part) : EngineState :=
  { st with
      calls := st.calls ++ agentCallTriple s prof p st,
      agentCallCount := st.agentCallCount + 1,
      nextHandoffId := st.nextHandoffId + 1,
      audits := st.audits ++ successAudits s parts,
      current_session_id := none }

/-- Engine state after an agent step that failed cleanly (client error or
timeout with successful abort): the failure audit appended, the pipeline
`failed`, the call slot consumed. -/
def agentFailState (st : EngineState) (s : Step) (calls : List BCall) : EngineState :=
  { st with
      calls := st.calls ++ calls,
      agentCallCount := st.agentCallCount + 1,
      audits := st.audits ++
        [{ pipeline_id := s.pipeline_id, step_id := some s.id,
           event_type := "step_failed" }],
      current_session_id := none,
      pipeline := { st.pipeline with status := .failed } }

/-- The create/send/abort/delete call sequence of a timed-out agent step. -/
def agentTimeoutCalls (s : Step) (prof : AgentProfile) (p : String)
    (st : EngineState) : List BCall :=
  [.createSession s.id (s.agent_name ++ "-" ++ toString s.id),
   .sendMessage s.id st.agentCallCount (build_prompt p prof st.pipeline.working_dir)
     prof.opencode_agent (pyOr s.model prof.default_model),
   .abortSession s.id st.agentCallCount,
   .deleteSession s.id st.agentCallCount]

/-- A backend oracle on which every agent call succeeds: session creation
never fails and every `send_message` returns a reply. -/
def BackendAllOk (cfg : RunnerConfig) : Prop :=
  ∀ n, (cfg.backend n).createError = none ∧
    ∃ parts, (cfg.backend n).send = .success parts

/-- Every step of the list can proceed: an approval gate whose decision is
`approved`, or an agent step whose agent resolves in the registry. -/
def StepsAllProceed (cfg : RunnerConfig) (steps : List Step) : Prop :=
  ∀ s ∈ steps,
    (s.agent_name = APPROVAL_SENTINEL ∧ (cfg.decisions s.id).status = .approved) ∨
    (s.agent_name ≠ APPROVAL_SENTINEL ∧ ∃ prof, cfg.registry s.agent_name = some prof)

/-- The number of agent (non-gate) steps in a list — the number of backend
call slots the list consumes. -/
def agentCount (steps : List Step) : Nat :=
  (steps.filter (fun s => !(s.agent_name == APPROVAL_SENTINEL))).length

/-- A backend behavior that makes `run_step` fail cleanly: the session is
created, then the send raises a client error, or times out with the abort
call succeeding. -/
def CleanFailBehavior (b : StepBehavior) : Prop :=
  b.createError = none ∧
    ((∃ m, b.send = .clientError m) ∨ (b.send = .timeout ∧ b.abortError = none))

/-- A minimal agent profile. -/
def devProfile : AgentProfile :=
  { name := "developer", opencode_agent := "developer",
    default_model := none, system_prompt_additions := "" }

/-- A registry resolving exactly `developer` and `reviewer`. -/
def twoAgentRegistry : String → Option AgentProfile := fun name =>
  if name == "developer" then some devProfile
  else if name == "reviewer" then
    some { devProfile with name := "reviewer", opencode_agent := "reviewer" }
  else none

/-- A text reply part. -/
def textPart (s : String) : Part := { type := "text", content := some s }

/-- A backend behavior answering with one plain-text reply. -/
def okStepBehavior (out : String) : StepBehavior :=
  { send := .success [textPart out] }

/-- The pipeline row of the concrete scenarios. -/
def basePipeline : Pipeline :=
  { id := 1, prompt := "Fix the bug", working_dir := none, status := .running }

/-- A pending step row. -/
def mkStep (id pos : Nat) (agent : String) : Step :=
  { id := id, pipeline_id := 1, agent_name := agent, order_index := pos,
    status := .pending, model := none, error_message := none, handoffs := [] }

/-- Runner configuration whose backend fails every session creation. -/
def createFailCfg : RunnerConfig :=
  { backend := fun _ => { createError := some "OpenCode API error 500: boom" },
    decisions := fun _ => {},
    registry := twoAgentRegistry, step_timeout := 30 }

/-- Runner configuration whose backend times out and whose abort call also
fails. -/
def abortFailCfg : RunnerConfig :=
  { backend := fun _ =>
      { send := .timeout, abortError := some "OpenCode API error 500: abort failed" },
    decisions := fun _ => {},
    registry := twoAgentRegistry, step_timeout := 30 }

/-- Configuration for the C1 witness: the first agent call succeeds, every
later one raises a backend error. -/
def c1WitnessCfg : RunnerConfig :=
  { backend := fun n =>
      if n == 0 then okStepBehavior "done A" else { send := .clientError "boom" },
    decisions := fun _ => {},
    registry := twoAgentRegistry, step_timeout := 30 }

/-- Configuration for the C4 witness: every decision is a rejection. -/
def rejectAllCfg : RunnerConfig :=
  { backend := fun _ => okStepBehavior "unused",
    decisions := fun _ => { status := .rejected },
    registry := twoAgentRegistry, step_timeout := 30 }

/-- Configuration for the C5 witness: the decision (an approval) arrives
only after the reminder timer has elapsed. -/
def lateApproveCfg : RunnerConfig :=
  { backend := fun _ => okStepBehavior "unused",
    decisions := fun _ => { arrivesBeforeReminder := false, status := .approved },
    registry := twoAgentRegistry, step_timeout := 30 }

/-- Configuration for the C5 witness: the same decision arriving before the
timer. -/
def earlyApproveCfg : RunnerConfig :=
  { backend := fun _ => okStepBehavior "unused",
    decisions := fun _ => { arrivesBeforeReminder := true, status := .approved },
    registry := twoAgentRegistry, step_timeout := 30 }

/-- Configuration for the C6 witness: every call succeeds, every gate is
approved. -/
def allOkCfg : RunnerConfig :=
  { backend := fun _ => okStepBehavior "done A",
    decisions := fun _ => { status := .approved },
    registry := twoAgentRegistry, step_timeout := 30 }

/-- A `done` step row carrying one handoff. -/
def doneRow (id pos handoffId : Nat) (content : String) : Step :=
  { mkStep id pos "developer" with
      status := .done,
      handoffs := [{ id := handoffId, content_md := content, metadata_json := none }] }

/-- Step rows for the C8 counterexample: two `done` steps whose handoff ids
are out of position order (the earlier step's handoff has the higher id),
plus one pending step. -/
def c8Rows : List Step :=
  [doneRow 1 0 10 "A", doneRow 2 1 3 "B", mkStep 7 2 "developer"]

/-- Configuration for the C8 counterexample and witness. -/
def resumeOkCfg : RunnerConfig :=
  { backend := fun _ => okStepBehavior "resumed output",
    decisions := fun _ => {},
    registry := twoAgentRegistry, step_timeout := 30 }

/-! ## Theorems -/


namespace SseBroker

/-- A read loop over a queue that ends with the `STOP` sentinel terminates. -/
theorem readLoopTerminates_append_stop (l : List QItem) :
    readLoopTerminates (l ++ [.stop]) = true := by
  induction l with
  | nil => rfl
  | cons x rest ih => cases x <;> simp [readLoopTerminates, ih]

/-- A read loop over a queue holding only event frames never terminates. -/
theorem readLoopTerminates_replicate_msg (n : Nat) (s : String) :
    readLoopTerminates (List.replicate n (.msg s)) = false := by
  induction n with
  | zero => rfl
  | succ k ih => simp [List.replicate, readLoopTerminates, ih]


/-- C9, counterexample: with one observer whose queue is full, `stop()` does
not place the `STOP` sentinel on that observer's queue (the `QueueFull` is
suppressed), and that observer's read loop does not terminate. -/
theorem c9_stop_full_queue_counterexample :
    (stop fullBroker).subscribers =
      [{ items := List.replicate QUEUE_MAX_SIZE (.msg "e") }] ∧
    QItem.stop ∉ (List.replicate QUEUE_MAX_SIZE (QItem.msg "e")) ∧
    readLoopTerminates (List.replicate QUEUE_MAX_SIZE (.msg "e")) = false := by
  refine ⟨?_, ?_, readLoopTerminates_replicate_msg _ _⟩
  · simp [stop, fullBroker, put_nowait]
  · simp [List.mem_replicate]

/-- C9, amended: `stop()` signals the upstream client to stop streaming and
cancels the background task; the `STOP` sentinel is placed on every observer
queue that is not already full (for a full queue the put is suppressed and
the sentinel dropped), and every observer whose queue was not full has a
terminating read loop. -/
theorem c9_stop_amended (b : Broker) :
    (stop b).stopStreamingRequested = true ∧
    (stop b).taskRunning = false ∧
    ∀ q ∈ b.subscribers, q.items.length < QUEUE_MAX_SIZE →
      ∃ q' ∈ (stop b).subscribers,
        q'.items = q.items ++ [.stop] ∧ readLoopTerminates q'.items = true := by
  refine ⟨rfl, rfl, fun q hq hlt => ?_⟩
  refine ⟨(put_nowait q .stop).1, List.mem_map_of_mem _ hq, ?_, ?_⟩
  · simp [put_nowait, hlt]
  · simp [put_nowait, hlt, readLoopTerminates_append_stop]


/-- Witness for `c9_stop_amended` at a concrete broker. -/
theorem c9_stop_amended_witness :
    (stop witnessBroker).stopStreamingRequested = true ∧
    (stop witnessBroker).taskRunning = false ∧
    ∃ q' ∈ (stop witnessBroker).subscribers,
      q'.items = [QItem.msg "a"] ++ [.stop] ∧ readLoopTerminates q'.items = true := by
  obtain ⟨h1, h2, h3⟩ := c9_stop_amended witnessBroker
  exact ⟨h1, h2, h3 { items := [.msg "a"] } (by simp [witnessBroker]) (by decide)⟩

end SseBroker

namespace HandoffExtractor

/-- Writing one field leaves the other fields unchanged. -/
theorem getField_setField_ne (fl : HandoffSchema) (k f : FieldKey) (v : String)
    (hne : k ≠ f) : getField (setField fl k v) f = getField fl f := by
  cases k <;> cases f <;> simp_all [getField, setField]

/-- A field already present in the `fields` dict survives a section flush
(the flush only writes absent keys). -/
theorem getField_flushSection (fl : HandoffSchema) (cur : Option FieldKey)
    (lines : List String) (f : FieldKey) (v : String)
    (h : getField fl f = some v) :
    getField (flushSection fl cur lines) f = some v := by
  cases cur with
  | none => exact h
  | some k =>
    by_cases hkf : k = f
    · subst hkf
      simp [flushSection, h]
    · simp only [flushSection]
      split
      · rw [getField_setField_ne _ _ _ _ hkf]; exact h
      · exact h

/-- A field already present in the `fields` dict survives processing one
more line. -/
theorem getField_processLine (st : ExtState) (line : String) (f : FieldKey)
    (v : String) (h : getField st.fields f = some v) :
    getField (processLine st line).fields f = some v := by
  unfold processLine
  split
  · exact getField_flushSection _ _ _ _ _ h
  · split <;> exact h

/-- A field already present in the `fields` dict survives the rest of the
line loop: later occurrences of its heading (and their bodies) cannot
overwrite it. -/
theorem getField_processLines (lines : List String) (st : ExtState)
    (f : FieldKey) (v : String) (h : getField st.fields f = some v) :
    getField (processLines st lines).fields f = some v := by
  induction lines generalizing st with
  | nil => exact h
  | cons line rest ih =>
    exact ih (processLine st line) (getField_processLine st line f v h)

/-- C10: if, after the extractor's line loop has consumed a prefix `ls₁` of
the input's lines, the `fields` dict already holds value `v` for field `f`
(the section under the first occurrence of `f`'s heading), then no matter
what the remaining lines `ls₂` contain — in particular further occurrences
of the same recognized heading and their bodies — a successful
`HandoffExtractor.extract` of the whole input still reports `f = v`: the
first occurrence wins and later ones are ignored. -/
theorem c10_first_occurrence_wins (md : String) (ls₁ ls₂ : List String)
    (f : FieldKey) (v : String) (schema : HandoffSchema)
    (hsplit : splitLines md = ls₁ ++ ls₂)
    (hfirst : getField (processLines {} ls₁).fields f = some v)
    (hex : extract md = some schema) :
    getField schema f = some v := by
  unfold extract at hex
  split at hex
  · exact absurd hex (by simp)
  · unfold extractLines at hex
    rw [hsplit] at hex
    have hlines : getField (processLines {} (ls₁ ++ ls₂)).fields f = some v := by
      unfold processLines at hfirst ⊢
      rw [List.foldl_append]
      exact getField_processLines _ _ _ _ hfirst
    have hflushed := getField_flushSection
      (processLines {} (ls₁ ++ ls₂)).fields
      (processLines {} (ls₁ ++ ls₂)).current
      (processLines {} (ls₁ ++ ls₂)).curLines f v hlines
    simp only at hex
    split at hex
    · exact absurd hex (by simp)
    · split at hex
      · exact absurd hex (by simp)
      · cases hex
        exact hflushed

/-- Witness for `c10_first_occurrence_wins`: the duplicate-heading input of
the extractor's own test suite; the prefix ends right after the second
occurrence's heading line, at which point the first occurrence's content is
already recorded. -/
theorem c10_first_occurrence_wins_witness :
    getField
      (processLines {}
        ["## What Was Done", "First occurrence content.", "", "## What Was Done"]).fields
      .what_was_done = some "First occurrence content." ∧
    ∃ schema,
      extract ("## What Was Done\nFirst occurrence content.\n\n## What Was Done\n" ++
        "Second occurrence content.\n") = some schema ∧
      getField schema .what_was_done = some "First occurrence content." := by
  refine ⟨by decide, ?_⟩
  refine ⟨{ what_was_done := some "First occurrence content." }, by decide, ?_⟩
  exact c10_first_occurrence_wins
    ("## What Was Done\nFirst occurrence content.\n\n## What Was Done\n" ++
      "Second occurrence content.\n")
    ["## What Was Done", "First occurrence content.", "", "## What Was Done"]
    ["Second occurrence content."] .what_was_done "First occurrence content."
    { what_was_done := some "First occurrence content." }
    (by decide) (by decide) (by decide)

end HandoffExtractor

/-- The approval-gate handler never issues a backend call. -/
theorem execute_approval_step_calls (cfg : RunnerConfig) (s : Step) (p : String)
    (remind : Option Nat) (st : EngineState) :
    (execute_approval_step cfg s p remind st).2.1.calls = st.calls := by
  unfold execute_approval_step approvalRequestPhase approvalReminderPhase
    approvalDecidePhase mark_pipeline_failed
  rcases remind with _ | h
  · cases h : (cfg.decisions s.id).status <;> simp [h]
  · by_cases harr : (cfg.decisions s.id).arrivesBeforeReminder <;>
      cases h : (cfg.decisions s.id).status <;> simp [harr, h]

/-- `execute_steps` only appends to the backend call log. -/
theorem execute_steps_calls_prefix (cfg : RunnerConfig) (steps : List Step) :
    ∀ (i : Nat) (p : String) (tpl : Option (List TemplateStep)) (st : EngineState),
    st.calls <+: (execute_steps cfg i steps p tpl st).st.calls := by
  induction steps with
  | nil => intro i p tpl st; simp [execute_steps]
  | cons s rest ih =>
    intro i p tpl st
    simp only [execute_steps]
    split
    · have hc := execute_approval_step_calls cfg s p (remindFor tpl i) st
      rcases hE : execute_approval_step cfg s p (remindFor tpl i) st with ⟨s', st', res⟩
      rw [hE] at hc
      simp only at hc
      cases res with
      | none => simp [hc]
      | some q =>
        simp only []
        have h1 : st.calls <+: st'.calls := by rw [hc]
        exact h1.trans (ih (i+1) q tpl st')
    · cases hreg : cfg.registry s.agent_name with
      | none => simp [mark_pipeline_failed]
      | some prof =>
        simp only []
        have hrs : ∀ (model : Option String) (wd : Option String),
            st.calls <+: (run_step cfg { s with status := .running } prof p model wd st).st.calls := by
          intro model wd
          unfold run_step runStepCleanup persist_success persist_failure
          cases hc : (cfg.backend st.agentCallCount).createError with
          | some m => simp [hc, List.append_assoc]
          | none =>
            cases hs : (cfg.backend st.agentCallCount).send with
            | success parts => simp [hc, hs, List.append_assoc]
            | clientError m => simp [hc, hs, List.append_assoc]
            | timeout =>
              cases ha : (cfg.backend st.agentCallCount).abortError with
              | some m => simp [hc, hs, ha, List.append_assoc]
              | none => simp [hc, hs, ha, List.append_assoc]
        rcases hR : run_step cfg { s with status := .running } prof p
            (pyOr s.model prof.default_model) st.pipeline.working_dir st with ⟨s', st', res⟩
        have hpre := hrs (pyOr s.model prof.default_model) st.pipeline.working_dir
        rw [hR] at hpre
        simp only at hpre
        cases res with
        | ok v =>
          rcases v with ⟨output, schema⟩
          simp only []
          exact hpre.trans (ih (i+1) _ tpl st')
        | error e =>
          cases e with
          | stepExecutionError m => simpa [mark_pipeline_failed] using hpre
          | openCodeClientError m => simpa using hpre

/-- One agent step with a created session and a successful reply: the step
is marked `done` with its new `Handoff` appended, the call log grows by the
create/send/delete triple, and execution continues with the chained prompt. -/
theorem execute_steps_cons_agent_success (cfg : RunnerConfig) (i : Nat) (s : Step)
    (rest : List Step) (p : String) (tpl : Option (List TemplateStep))
    (st : EngineState) (prof : AgentProfile) (parts : List Part)
    (hsent : (s.agent_name == APPROVAL_SENTINEL) = false)
    (hreg : cfg.registry s.agent_name = some prof)
    (hcr : (cfg.backend st.agentCallCount).createError = none)
    (hsend : (cfg.backend st.agentCallCount).send = .success parts) :
    execute_steps cfg i (s :: rest) p tpl st =
      (let out := execute_steps cfg (i + 1) rest (chainedPrompt s.agent_name parts) tpl
        (agentSuccessState st s prof p parts)
       { steps := doneStep s st.nextHandoffId parts :: out.steps,
         st := out.st, exc := out.exc }) := by
  simp only [execute_steps, run_step, persist_success, runStepCleanup, hsent, hcr, hsend,
    Bool.false_eq_true, if_false, agentSuccessState, agentCallTriple, successAudits,
    doneStep, chainedPrompt, stepSchema, stepOutput]
  simp [hreg, List.append_assoc]

/-- An approved gate: the gate step is marked `done`, the pipeline returns
to `running`, the gate's audit trail and decided approval row are appended,
no backend call is made, and execution continues with the comment-augmented
prompt. -/
theorem execute_steps_cons_gate_approved (cfg : RunnerConfig) (i : Nat) (s : Step)
    (rest : List Step) (p : String) (tpl : Option (List TemplateStep))
    (st : EngineState)
    (hsent : (s.agent_name == APPROVAL_SENTINEL) = true)
    (hdec : (cfg.decisions s.id).status = .approved) :
    execute_steps cfg i (s :: rest) p tpl st =
      (let out := execute_steps cfg (i + 1) rest (approvedPrompt p (cfg.decisions s.id)) tpl
        (gateApprovedState st s.id (remindFor tpl i) (cfg.decisions s.id))
       { steps := { s with status := .done } :: out.steps,
         st := out.st, exc := out.exc }) := by
  simp only [execute_steps, execute_approval_step, approvalRequestPhase,
    approvalReminderPhase, approvalDecidePhase, hsent, hdec, if_true,
    gateApprovedState, decidedApprovals, gateAuditTrail, reminderAudits,
    pendingApprovalRow, approvedPrompt]
  cases hrem : remindFor tpl i with
  | none => simp [List.append_assoc]
  | some hhh =>
    by_cases harr : (cfg.decisions s.id).arrivesBeforeReminder <;>
      simp [harr, List.append_assoc]

/-- A rejected gate: the gate's audit trail ends in `approval_rejected`,
the gate step and the pipeline are marked `failed`, the remaining steps are
returned untouched, no backend call is made, and no exception escapes. -/
theorem execute_steps_cons_gate_rejected (cfg : RunnerConfig) (i : Nat) (s : Step)
    (rest : List Step) (p : String) (tpl : Option (List TemplateStep))
    (st : EngineState)
    (hsent : (s.agent_name == APPROVAL_SENTINEL) = true)
    (hdec : (cfg.decisions s.id).status = .rejected) :
    execute_steps cfg i (s :: rest) p tpl st =
      { steps := { s with status := .failed } :: rest,
        st := gateRejectedState st s.id (remindFor tpl i) (cfg.decisions s.id),
        exc := none } := by
  simp only [execute_steps, execute_approval_step, approvalRequestPhase,
    approvalReminderPhase, approvalDecidePhase, mark_pipeline_failed, hsent, hdec, if_true,
    gateRejectedState, decidedApprovals, gateAuditTrail, reminderAudits, pendingApprovalRow]
  cases hrem : remindFor tpl i with
  | none => simp [List.append_assoc]
  | some hhh =>
    by_cases harr : (cfg.decisions s.id).arrivesBeforeReminder <;>
      simp [harr, List.append_assoc]

/-- An agent step whose `send_message` raises a backend error: the step is
persisted `failed` with the backend's detail, a `step_failed` audit event is
written, the pipeline is marked `failed`, the remaining steps are returned
untouched, and no exception escapes (`StepExecutionError` is caught). -/
theorem execute_steps_cons_agent_clientError (cfg : RunnerConfig) (i : Nat)
    (s : Step) (rest : List Step) (p : String) (tpl : Option (List TemplateStep))
    (st : EngineState) (prof : AgentProfile) (m : String)
    (hsent : (s.agent_name == APPROVAL_SENTINEL) = false)
    (hreg : cfg.registry s.agent_name = some prof)
    (hcr : (cfg.backend st.agentCallCount).createError = none)
    (hsend : (cfg.backend st.agentCallCount).send = .clientError m) :
    execute_steps cfg i (s :: rest) p tpl st =
      { steps := { s with status := .failed, error_message := some m } :: rest,
        st := agentFailState st s (agentCallTriple s prof p st),
        exc := none } := by
  simp only [execute_steps, run_step, persist_failure, runStepCleanup,
    mark_pipeline_failed, hsent, hcr, hsend, Bool.false_eq_true, if_false,
    agentFailState, agentCallTriple]
  simp [hreg, List.append_assoc]

/-- An agent step whose `send_message` exceeds the step timeout and whose
abort call succeeds: exactly one `abort_session` call is issued, the step is
persisted `failed` with a message carrying the configured timeout, a
`step_failed` audit event is written, the pipeline is marked `failed`, and
no exception escapes. -/
theorem execute_steps_cons_agent_timeout (cfg : RunnerConfig) (i : Nat)
    (s : Step) (rest : List Step) (p : String) (tpl : Option (List TemplateStep))
    (st : EngineState) (prof : AgentProfile)
    (hsent : (s.agent_name == APPROVAL_SENTINEL) = false)
    (hreg : cfg.registry s.agent_name = some prof)
    (hcr : (cfg.backend st.agentCallCount).createError = none)
    (hsend : (cfg.backend st.agentCallCount).send = .timeout)
    (habort : (cfg.backend st.agentCallCount).abortError = none) :
    execute_steps cfg i (s :: rest) p tpl st =
      { steps :=
          { s with
              status := .failed,
              error_message :=
                some ("Step timed out after " ++ toString cfg.step_timeout ++ "s") } :: rest,
        st := agentFailState st s (agentTimeoutCalls s prof p st),
        exc := none } := by
  simp only [execute_steps, run_step, persist_failure, runStepCleanup,
    mark_pipeline_failed, hsent, hcr, hsend, habort, Bool.false_eq_true, if_false,
    agentFailState, agentTimeoutCalls]
  simp [hreg, List.append_assoc]

/-- Master lemma: when every agent call succeeds and every gate is approved,
`_execute_steps` finishes with no exception, marks the pipeline `done`,
marks every step `done` (same rows, same order), and issues exactly one
`send_message` per agent step, in list order. -/
theorem execute_steps_all_success (cfg : RunnerConfig) (steps : List Step)
    (hB : BackendAllOk cfg) :
    ∀ (i : Nat) (p : String) (tpl : Option (List TemplateStep)) (st : EngineState),
    StepsAllProceed cfg steps →
    (execute_steps cfg i steps p tpl st).exc = none ∧
    (execute_steps cfg i steps p tpl st).st.pipeline.status = .done ∧
    List.Forall₂ (fun a b => b.id = a.id ∧ b.status = StepStatus.done)
      steps (execute_steps cfg i steps p tpl st).steps ∧
    (execute_steps cfg i steps p tpl st).st.calls.filterMap BCall.sendStepId =
      st.calls.filterMap BCall.sendStepId ++
        (steps.filter (fun s => !(s.agent_name == APPROVAL_SENTINEL))).map Step.id := by
  induction steps with
  | nil =>
    intro i p tpl st _
    refine ⟨rfl, rfl, List.Forall₂.nil, ?_⟩
    simp [execute_steps]
  | cons s rest ih =>
    intro i p tpl st hS
    rcases hS s (List.mem_cons_self s rest) with ⟨hsent, hdec⟩ | ⟨hsent, prof, hreg⟩
    · -- approval gate, approved
      have hsentb : (s.agent_name == APPROVAL_SENTINEL) = true := by simp [hsent]
      rw [execute_steps_cons_gate_approved cfg i s rest p tpl st hsentb hdec]
      simp only []
      obtain ⟨h1, h2, h3, h4⟩ := ih (i + 1) (approvedPrompt p (cfg.decisions s.id)) tpl
        (gateApprovedState st s.id (remindFor tpl i) (cfg.decisions s.id))
        (fun x hx => hS x (List.mem_cons_of_mem s hx))
      refine ⟨h1, h2, List.Forall₂.cons (by simp) h3, ?_⟩
      rw [h4]
      have hcalls : (gateApprovedState st s.id (remindFor tpl i) (cfg.decisions s.id)).calls
          = st.calls := rfl
      rw [hcalls]
      simp [hsentb]
    · -- agent step, successful call
      obtain ⟨hcr, parts, hsend⟩ := hB st.agentCallCount
      have hsentb : (s.agent_name == APPROVAL_SENTINEL) = false := by simp [hsent]
      rw [execute_steps_cons_agent_success cfg i s rest p tpl st prof parts
        hsentb hreg hcr hsend]
      simp only []
      obtain ⟨h1, h2, h3, h4⟩ := ih (i + 1) (chainedPrompt s.agent_name parts) tpl
        (agentSuccessState st s prof p parts)
        (fun x hx => hS x (List.mem_cons_of_mem s hx))
      refine ⟨h1, h2, List.Forall₂.cons (by simp [doneStep]) h3, ?_⟩
      rw [h4]
      have hcalls : (agentSuccessState st s prof p parts).calls
          = st.calls ++ agentCallTriple s prof p st := rfl
      rw [hcalls]
      simp [hsentb, agentCallTriple, BCall.sendStepId, List.append_assoc]

theorem agentCount_cons_gate (x : Step) (l : List Step)
    (h : (x.agent_name == APPROVAL_SENTINEL) = true) :
    agentCount (x :: l) = agentCount l := by
  simp [agentCount, h]

theorem agentCount_cons_agent (x : Step) (l : List Step)
    (h : (x.agent_name == APPROVAL_SENTINEL) = false) :
    agentCount (x :: l) = agentCount l + 1 := by
  simp [agentCount, h]

/-- First-failure lemma: when every step before `sk` proceeds (success or
approved gate) and `sk` is an agent step whose backend call fails cleanly,
`_execute_steps` marks the prefix `done`, `sk` `failed` with a recorded
error message, leaves the suffix untouched, marks the pipeline `failed`,
lets no exception escape, and issues backend calls only for the prefix and
`sk`. -/
theorem execute_steps_prefix_fail (cfg : RunnerConfig) (pre : List Step)
    (sk : Step) (post : List Step) (prof : AgentProfile)
    (hsk : (sk.agent_name == APPROVAL_SENTINEL) = false)
    (hskreg : cfg.registry sk.agent_name = some prof) :
    ∀ (i : Nat) (p : String) (tpl : Option (List TemplateStep)) (st : EngineState),
    StepsAllProceed cfg pre →
    (∀ n, n < agentCount pre →
      (cfg.backend (st.agentCallCount + n)).createError = none ∧
      ∃ parts, (cfg.backend (st.agentCallCount + n)).send = .success parts) →
    CleanFailBehavior (cfg.backend (st.agentCallCount + agentCount pre)) →
    (execute_steps cfg i (pre ++ sk :: post) p tpl st).exc = none ∧
    (execute_steps cfg i (pre ++ sk :: post) p tpl st).st.pipeline.status = .failed ∧
    (∃ preOut skOut,
      (execute_steps cfg i (pre ++ sk :: post) p tpl st).steps = preOut ++ skOut :: post ∧
      List.Forall₂ (fun a b => b.id = a.id ∧ b.status = StepStatus.done) pre preOut ∧
      skOut.id = sk.id ∧ skOut.status = .failed ∧ skOut.error_message ≠ none) ∧
    (∀ c ∈ (execute_steps cfg i (pre ++ sk :: post) p tpl st).st.calls,
      c ∈ st.calls ∨ c.stepId ∈ pre.map Step.id ++ [sk.id]) := by
  induction pre with
  | nil =>
    intro i p tpl st _ _ hk
    obtain ⟨hcr, hfail⟩ := hk
    rw [agentCount] at hcr hfail
    simp only [List.filter_nil, List.length_nil, Nat.add_zero] at hcr hfail
    rcases hfail with ⟨m, hsend⟩ | ⟨hsend, habort⟩
    · rw [List.nil_append,
        execute_steps_cons_agent_clientError cfg i sk post p tpl st prof m hsk hskreg hcr hsend]
      refine ⟨rfl, rfl, ⟨[], _, rfl, List.Forall₂.nil, rfl, rfl, by simp⟩, ?_⟩
      intro c hc
      have hc2 : c ∈ st.calls ++ agentCallTriple sk prof p st := hc
      rcases List.mem_append.mp hc2 with h | h
      · exact Or.inl h
      · right
        simp only [List.map_nil, List.nil_append]
        simp only [agentCallTriple, List.mem_cons, List.not_mem_nil, or_false] at h
        rcases h with h | h | h <;> subst h <;> simp [BCall.stepId]
    · rw [List.nil_append,
        execute_steps_cons_agent_timeout cfg i sk post p tpl st prof hsk hskreg hcr hsend habort]
      refine ⟨rfl, rfl, ⟨[], _, rfl, List.Forall₂.nil, rfl, rfl, by simp⟩, ?_⟩
      intro c hc
      have hc2 : c ∈ st.calls ++ agentTimeoutCalls sk prof p st := hc
      rcases List.mem_append.mp hc2 with h | h
      · exact Or.inl h
      · right
        simp only [List.map_nil, List.nil_append]
        simp only [agentTimeoutCalls, List.mem_cons, List.not_mem_nil, or_false] at h
        rcases h with h | h | h | h <;> subst h <;> simp [BCall.stepId]
  | cons x pre' ih =>
    intro i p tpl st hPre hGood hk
    rcases hPre x (List.mem_cons_self x pre') with ⟨hsent, hdec⟩ | ⟨hsent, prof2, hreg2⟩
    · -- gate, approved
      have hsentb : (x.agent_name == APPROVAL_SENTINEL) = true := by simp [hsent]
      rw [List.cons_append,
        execute_steps_cons_gate_approved cfg i x (pre' ++ sk :: post) p tpl st hsentb hdec]
      simp only []
      have hcount := agentCount_cons_gate x pre' hsentb
      have hacc : (gateApprovedState st x.id (remindFor tpl i) (cfg.decisions x.id)).agentCallCount
          = st.agentCallCount := rfl
      obtain ⟨h1, h2, h3, h4⟩ := ih (i + 1) (approvedPrompt p (cfg.decisions x.id)) tpl
        (gateApprovedState st x.id (remindFor tpl i) (cfg.decisions x.id))
        (fun y hy => hPre y (List.mem_cons_of_mem x hy))
        (by intro n hn
            rw [hacc]
            exact hGood n (by rw [hcount]; exact hn))
        (by rw [hacc, ← hcount]; exact hk)
      refine ⟨h1, h2, ?_, ?_⟩
      · obtain ⟨preOut, skOut, heq, hfa, hid, hstat, herr⟩ := h3
        exact ⟨{ x with status := .done } :: preOut, skOut, by rw [heq]; rfl,
          List.Forall₂.cons (by simp) hfa, hid, hstat, herr⟩
      · intro c hc
        rcases h4 c hc with h | h
        · exact Or.inl h
        · right
          simp only [List.map_cons, List.cons_append]
          exact List.mem_cons_of_mem _ h
    · -- agent, success (prefix)
      have hsentb : (x.agent_name == APPROVAL_SENTINEL) = false := by simp [hsent]
      have hcount := agentCount_cons_agent x pre' hsentb
      obtain ⟨hcr0, parts, hsend0⟩ := by
        have := hGood 0 (by rw [hcount]; omega)
        rwa [Nat.add_zero] at this
      rw [List.cons_append,
        execute_steps_cons_agent_success cfg i x (pre' ++ sk :: post) p tpl st prof2 parts
          hsentb hreg2 hcr0 hsend0]
      simp only []
      have hacc : (agentSuccessState st x prof2 p parts).agentCallCount
          = st.agentCallCount + 1 := rfl
      obtain ⟨h1, h2, h3, h4⟩ := ih (i + 1) (chainedPrompt x.agent_name parts) tpl
        (agentSuccessState st x prof2 p parts)
        (fun y hy => hPre y (List.mem_cons_of_mem x hy))
        (by intro n hn
            rw [hacc]
            have := hGood (n + 1) (by rw [hcount]; omega)
            have harith : st.agentCallCount + (n + 1) = st.agentCallCount + 1 + n := by omega
            rwa [harith] at this)
        (by rw [hacc]
            have harith : st.agentCallCount + agentCount (x :: pre') =
                st.agentCallCount + 1 + agentCount pre' := by rw [hcount]; omega
            rwa [harith] at hk)
      refine ⟨h1, h2, ?_, ?_⟩
      · obtain ⟨preOut, skOut, heq, hfa, hid, hstat, herr⟩ := h3
        exact ⟨doneStep x st.nextHandoffId parts :: preOut, skOut, by rw [heq]; rfl,
          List.Forall₂.cons (by simp [doneStep]) hfa, hid, hstat, herr⟩
      · intro c hc
        rcases h4 c hc with h | h
        · have h' : c ∈ st.calls ++ agentCallTriple x prof2 p st := h
          rcases List.mem_append.mp h' with h2' | h2'
          · exact Or.inl h2'
          · right
            simp only [List.map_cons, List.cons_append]
            have : c.stepId = x.id := by
              simp only [agentCallTriple, List.mem_cons, List.not_mem_nil, or_false] at h2'
              rcases h2' with h3' | h3' | h3' <;> subst h3' <;> simp [BCall.stepId]
            rw [this]
            exact List.mem_cons_self _ _
        · right
          simp only [List.map_cons, List.cons_append]
          exact List.mem_cons_of_mem _ h

/-- C2, the code evaluated at the failing input: when `create_session`
raises a backend error, the raw `OpenCodeClientError` escapes
`_execute_steps` (it is not converted to `StepExecutionError`), the step is
left `running` with no error message and no `step_failed` audit event, and
the pipeline is not marked `failed` by the engine. -/
theorem c2_session_creation_error_escapes :
    (execute_steps createFailCfg 0 [mkStep 1 0 "developer", mkStep 2 1 "developer"]
      "Fix the bug" none (initState basePipeline)).exc =
        some (.openCodeClientError "OpenCode API error 500: boom") ∧
    (execute_steps createFailCfg 0 [mkStep 1 0 "developer", mkStep 2 1 "developer"]
      "Fix the bug" none (initState basePipeline)).steps.map Step.status =
        [.running, .pending] ∧
    (execute_steps createFailCfg 0 [mkStep 1 0 "developer", mkStep 2 1 "developer"]
      "Fix the bug" none (initState basePipeline)).steps.map Step.error_message =
        [none, none] ∧
    (execute_steps createFailCfg 0 [mkStep 1 0 "developer", mkStep 2 1 "developer"]
      "Fix the bug" none (initState basePipeline)).st.pipeline.status = .running ∧
    (execute_steps createFailCfg 0 [mkStep 1 0 "developer", mkStep 2 1 "developer"]
      "Fix the bug" none (initState basePipeline)).st.audits = [] ∧
    (execute_steps createFailCfg 0 [mkStep 1 0 "developer", mkStep 2 1 "developer"]
      "Fix the bug" none (initState basePipeline)).st.calls =
        [.createSession 1 "developer-1"] := by
  decide

/-- C3, the code evaluated at the failing input: on timeout exactly one
abort call is issued, but when that abort call itself fails the raw
`OpenCodeClientError` escapes the engine, the step stays `running` with no
persisted timeout message, and the pipeline is not marked `failed` by the
engine. -/
theorem c3_abort_failure_escapes :
    (execute_steps abortFailCfg 0 [mkStep 1 0 "developer", mkStep 2 1 "developer"]
      "Fix the bug" none (initState basePipeline)).st.calls =
        [.createSession 1 "developer-1",
         .sendMessage 1 0 "Fix the bug" "developer" none,
         .abortSession 1 0,
         .deleteSession 1 0] ∧
    (execute_steps abortFailCfg 0 [mkStep 1 0 "developer", mkStep 2 1 "developer"]
      "Fix the bug" none (initState basePipeline)).exc =
        some (.openCodeClientError "OpenCode API error 500: abort failed") ∧
    (execute_steps abortFailCfg 0 [mkStep 1 0 "developer", mkStep 2 1 "developer"]
      "Fix the bug" none (initState basePipeline)).steps.map Step.status =
        [.running, .pending] ∧
    (execute_steps abortFailCfg 0 [mkStep 1 0 "developer", mkStep 2 1 "developer"]
      "Fix the bug" none (initState basePipeline)).steps.map Step.error_message =
        [none, none] ∧
    (execute_steps abortFailCfg 0 [mkStep 1 0 "developer", mkStep 2 1 "developer"]
      "Fix the bug" none (initState basePipeline)).st.pipeline.status = .running := by
  decide

/-- C1: in a `_execute_steps` run whose steps before position `k` all
proceed (successful agent calls, approved gates) and whose step `k` is an
agent step failing cleanly (backend error, or timeout with successful
abort), the first `k` steps end `done`, step `k` ends `failed` with an
error message, the steps after `k` are returned untouched (so a pending
step remains `pending`), the pipeline is marked `failed`, no exception
escapes, and no backend call is issued for any step after `k`. -/
theorem c1_first_failure_stops_pipeline (cfg : RunnerConfig) (pl : Pipeline)
    (pre : List Step) (sk : Step) (post : List Step) (prof : AgentProfile)
    (p : String) (tpl : Option (List TemplateStep))
    (hsk : (sk.agent_name == APPROVAL_SENTINEL) = false)
    (hskreg : cfg.registry sk.agent_name = some prof)
    (hPre : StepsAllProceed cfg pre)
    (hGood : ∀ n, n < agentCount pre →
      (cfg.backend n).createError = none ∧
      ∃ parts, (cfg.backend n).send = .success parts)
    (hFail : CleanFailBehavior (cfg.backend (agentCount pre)))
    (hPost : ∀ s ∈ post, s.status = .pending)
    (hNodup : ((pre ++ sk :: post).map Step.id).Nodup) :
    (execute_steps cfg 0 (pre ++ sk :: post) p tpl (initState pl)).exc = none ∧
    (execute_steps cfg 0 (pre ++ sk :: post) p tpl (initState pl)).st.pipeline.status = .failed ∧
    (∃ preOut skOut,
      (execute_steps cfg 0 (pre ++ sk :: post) p tpl (initState pl)).steps =
        preOut ++ skOut :: post ∧
      List.Forall₂ (fun a b => b.id = a.id ∧ b.status = StepStatus.done) pre preOut ∧
      skOut.id = sk.id ∧ skOut.status = .failed ∧ skOut.error_message ≠ none ∧
      (∀ s ∈ post, s.status = .pending)) ∧
    (∀ c ∈ (execute_steps cfg 0 (pre ++ sk :: post) p tpl (initState pl)).st.calls,
      c.stepId ∉ post.map Step.id) := by
  have hGood0 : ∀ n, n < agentCount pre →
      (cfg.backend ((initState pl).agentCallCount + n)).createError = none ∧
      ∃ parts, (cfg.backend ((initState pl).agentCallCount + n)).send = .success parts := by
    intro n hn
    simpa [initState] using hGood n hn
  have hFail0 : CleanFailBehavior
      (cfg.backend ((initState pl).agentCallCount + agentCount pre)) := by
    simpa [initState] using hFail
  obtain ⟨h1, h2, h3, h4⟩ := execute_steps_prefix_fail cfg pre sk post prof hsk hskreg
    0 p tpl (initState pl) hPre hGood0 hFail0
  refine ⟨h1, h2, ?_, ?_⟩
  · obtain ⟨preOut, skOut, heq, hfa, hid, hstat, herr⟩ := h3
    exact ⟨preOut, skOut, heq, hfa, hid, hstat, herr, hPost⟩
  · -- no call targets a step after sk
    have hmap : (pre.map Step.id ++ sk.id :: post.map Step.id).Nodup := by
      simpa using hNodup
    rw [List.nodup_append] at hmap
    obtain ⟨hn1, hn2, hdisj⟩ := hmap
    intro c hc
    rcases h4 c hc with h | h
    · simp [initState] at h
    · rcases List.mem_append.mp h with h' | h'
      · intro habs
        exact hdisj h' (List.mem_cons_of_mem _ habs)
      · have : c.stepId = sk.id := by simpa using h'
        rw [this]
        rw [List.nodup_cons] at hn2
        exact hn2.1

/-- Witness for `c1_first_failure_stops_pipeline`: a three-step pipeline
whose second step's backend call raises an error. -/
theorem c1_first_failure_stops_pipeline_witness :
    (execute_steps c1WitnessCfg 0
      ([mkStep 1 0 "developer"] ++ mkStep 2 1 "developer" :: [mkStep 3 2 "reviewer"])
      "Fix the bug" none (initState basePipeline)).exc = none ∧
    (execute_steps c1WitnessCfg 0
      ([mkStep 1 0 "developer"] ++ mkStep 2 1 "developer" :: [mkStep 3 2 "reviewer"])
      "Fix the bug" none (initState basePipeline)).st.pipeline.status = .failed ∧
    (∃ preOut skOut,
      (execute_steps c1WitnessCfg 0
        ([mkStep 1 0 "developer"] ++ mkStep 2 1 "developer" :: [mkStep 3 2 "reviewer"])
        "Fix the bug" none (initState basePipeline)).steps =
          preOut ++ skOut :: [mkStep 3 2 "reviewer"] ∧
      List.Forall₂ (fun a b => b.id = a.id ∧ b.status = StepStatus.done)
        [mkStep 1 0 "developer"] preOut ∧
      skOut.id = (mkStep 2 1 "developer").id ∧ skOut.status = .failed ∧
      skOut.error_message ≠ none ∧
      (∀ s ∈ [mkStep 3 2 "reviewer"], s.status = .pending)) ∧
    (∀ c ∈ (execute_steps c1WitnessCfg 0
        ([mkStep 1 0 "developer"] ++ mkStep 2 1 "developer" :: [mkStep 3 2 "reviewer"])
        "Fix the bug" none (initState basePipeline)).st.calls,
      c.stepId ∉ [mkStep 3 2 "reviewer"].map Step.id) := by
  exact c1_first_failure_stops_pipeline c1WitnessCfg basePipeline
    [mkStep 1 0 "developer"] (mkStep 2 1 "developer") [mkStep 3 2 "reviewer"]
    devProfile "Fix the bug" none
    (by decide)
    rfl
    (by intro s hs
        fin_cases hs
        exact Or.inr ⟨by decide, devProfile, rfl⟩)
    (by intro n hn
        have h1 : agentCount [mkStep 1 0 "developer"] = 1 := rfl
        rw [h1] at hn
        have : n = 0 := by omega
        subst this
        exact ⟨rfl, [textPart "done A"], rfl⟩)
    (by exact ⟨rfl, Or.inl ⟨"boom", rfl⟩⟩)
    (by intro s hs; fin_cases hs; rfl)
    (by decide)

/-- C4: when `_execute_steps` stands at an approval gate and the decision
is `rejected`, exactly one `approval_rejected` audit event for the gate is
appended, the gate step and the pipeline are marked `failed`, every
subsequent step is returned untouched (pending steps remain `pending`), no
backend call is issued from the gate on, and no exception escapes. -/
theorem c4_rejection_stops_pipeline (cfg : RunnerConfig) (gate : Step)
    (rest : List Step) (p : String) (i : Nat) (tpl : Option (List TemplateStep))
    (st : EngineState)
    (hgate : (gate.agent_name == APPROVAL_SENTINEL) = true)
    (hdec : (cfg.decisions gate.id).status = .rejected)
    (hrest : ∀ s ∈ rest, s.status = .pending) :
    (execute_steps cfg i (gate :: rest) p tpl st).exc = none ∧
    (execute_steps cfg i (gate :: rest) p tpl st).steps =
      { gate with status := .failed } :: rest ∧
    (∀ s ∈ (execute_steps cfg i (gate :: rest) p tpl st).steps.tail,
      s.status = .pending) ∧
    (execute_steps cfg i (gate :: rest) p tpl st).st.pipeline.status = .failed ∧
    (execute_steps cfg i (gate :: rest) p tpl st).st.calls = st.calls ∧
    (execute_steps cfg i (gate :: rest) p tpl st).st.audits.countP
        (fun e => e.event_type == "approval_rejected" && e.step_id == some gate.id) =
      st.audits.countP
        (fun e => e.event_type == "approval_rejected" && e.step_id == some gate.id) + 1 := by
  rw [execute_steps_cons_gate_rejected cfg i gate rest p tpl st hgate hdec]
  refine ⟨rfl, rfl, ?_, rfl, rfl, ?_⟩
  · intro s hs
    exact hrest s hs
  · simp only [gateRejectedState, gateAuditTrail, List.countP_append]
    cases hrem : remindFor tpl i with
    | none => simp [reminderAudits]
    | some hh =>
      by_cases harr : (cfg.decisions gate.id).arrivesBeforeReminder <;>
        simp [reminderAudits, harr]

/-- Witness for `c4_rejection_stops_pipeline`: a gate followed by a pending
reviewer step, rejected. -/
theorem c4_rejection_stops_pipeline_witness :
    (execute_steps rejectAllCfg 1 (mkStep 5 1 APPROVAL_SENTINEL :: [mkStep 3 2 "reviewer"])
      "ctx" none (initState basePipeline)).exc = none ∧
    (execute_steps rejectAllCfg 1 (mkStep 5 1 APPROVAL_SENTINEL :: [mkStep 3 2 "reviewer"])
      "ctx" none (initState basePipeline)).steps =
      { mkStep 5 1 APPROVAL_SENTINEL with status := .failed } :: [mkStep 3 2 "reviewer"] ∧
    (∀ s ∈ (execute_steps rejectAllCfg 1 (mkStep 5 1 APPROVAL_SENTINEL :: [mkStep 3 2 "reviewer"])
      "ctx" none (initState basePipeline)).steps.tail, s.status = .pending) ∧
    (execute_steps rejectAllCfg 1 (mkStep 5 1 APPROVAL_SENTINEL :: [mkStep 3 2 "reviewer"])
      "ctx" none (initState basePipeline)).st.pipeline.status = .failed ∧
    (execute_steps rejectAllCfg 1 (mkStep 5 1 APPROVAL_SENTINEL :: [mkStep 3 2 "reviewer"])
      "ctx" none (initState basePipeline)).st.calls = (initState basePipeline).calls ∧
    (execute_steps rejectAllCfg 1 (mkStep 5 1 APPROVAL_SENTINEL :: [mkStep 3 2 "reviewer"])
      "ctx" none (initState basePipeline)).st.audits.countP
        (fun e => e.event_type == "approval_rejected" && e.step_id == some 5) =
      (initState basePipeline).audits.countP
        (fun e => e.event_type == "approval_rejected" && e.step_id == some 5) + 1 := by
  exact c4_rejection_stops_pipeline rejectAllCfg (mkStep 5 1 APPROVAL_SENTINEL)
    [mkStep 3 2 "reviewer"] "ctx" 1 none (initState basePipeline)
    (by decide) rfl (by intro s hs; fin_cases hs; rfl)

/-- C5: at an approval gate with a reminder interval configured, when the
decision signal does not arrive before the timer elapses, exactly one
`approval_reminder` audit event for the gate is written (none is written
when the decision arrives first), between the reminder and the wake the
pipeline still has status `waiting_for_approval` (it is never
auto-rejected), and the late decision produces exactly the same returned
prompt, step row, pipeline, approval rows and backend calls as the same
decision arriving before the timer — only the reminder audit event differs. -/
theorem c5_reminder_once_decision_honored (cfg cfg2 : RunnerConfig) (s : Step)
    (p : String) (h : Nat) (st : EngineState)
    (hlate : (cfg.decisions s.id).arrivesBeforeReminder = false)
    (hearly : cfg2.decisions s.id =
      { cfg.decisions s.id with arrivesBeforeReminder := true }) :
    (execute_approval_step cfg s p (some h) st).2.1.audits.countP
        (fun e => e.event_type == "approval_reminder" && e.step_id == some s.id) =
      st.audits.countP
        (fun e => e.event_type == "approval_reminder" && e.step_id == some s.id) + 1 ∧
    (execute_approval_step cfg2 s p (some h) st).2.1.audits.countP
        (fun e => e.event_type == "approval_reminder" && e.step_id == some s.id) =
      st.audits.countP
        (fun e => e.event_type == "approval_reminder" && e.step_id == some s.id) ∧
    (approvalReminderPhase (approvalRequestPhase s st).1 (some h) (cfg.decisions s.id)
        (approvalRequestPhase s st).2).pipeline.status = .waiting_for_approval ∧
    (execute_approval_step cfg s p (some h) st).1 =
      (execute_approval_step cfg2 s p (some h) st).1 ∧
    (execute_approval_step cfg s p (some h) st).2.2 =
      (execute_approval_step cfg2 s p (some h) st).2.2 ∧
    (execute_approval_step cfg s p (some h) st).2.1.pipeline =
      (execute_approval_step cfg2 s p (some h) st).2.1.pipeline ∧
    (execute_approval_step cfg s p (some h) st).2.1.approvals =
      (execute_approval_step cfg2 s p (some h) st).2.1.approvals ∧
    (execute_approval_step cfg s p (some h) st).2.1.calls =
      (execute_approval_step cfg2 s p (some h) st).2.1.calls := by
  have hbeq : (("approval_requested" == "approval_reminder") = false) := by decide
  simp only [execute_approval_step, approvalRequestPhase, approvalReminderPhase,
    approvalDecidePhase, hearly, hlate]
  cases hstat : (cfg.decisions s.id).status <;>
    simp [hstat, List.countP_append, List.countP_cons, hbeq, mark_pipeline_failed]

/-- Witness for `c5_reminder_once_decision_honored` at a concrete gate. -/
theorem c5_reminder_once_decision_honored_witness :
    (execute_approval_step lateApproveCfg (mkStep 5 1 APPROVAL_SENTINEL) "ctx" (some 24)
        (initState basePipeline)).2.1.audits.countP
        (fun e => e.event_type == "approval_reminder" && e.step_id == some 5) =
      (initState basePipeline).audits.countP
        (fun e => e.event_type == "approval_reminder" && e.step_id == some 5) + 1 ∧
    (execute_approval_step earlyApproveCfg (mkStep 5 1 APPROVAL_SENTINEL) "ctx" (some 24)
        (initState basePipeline)).2.1.audits.countP
        (fun e => e.event_type == "approval_reminder" && e.step_id == some 5) =
      (initState basePipeline).audits.countP
        (fun e => e.event_type == "approval_reminder" && e.step_id == some 5) ∧
    (approvalReminderPhase (approvalRequestPhase (mkStep 5 1 APPROVAL_SENTINEL)
        (initState basePipeline)).1 (some 24)
        (lateApproveCfg.decisions (mkStep 5 1 APPROVAL_SENTINEL).id)
        (approvalRequestPhase (mkStep 5 1 APPROVAL_SENTINEL)
          (initState basePipeline)).2).pipeline.status = .waiting_for_approval ∧
    (execute_approval_step lateApproveCfg (mkStep 5 1 APPROVAL_SENTINEL) "ctx" (some 24)
        (initState basePipeline)).1 =
      (execute_approval_step earlyApproveCfg (mkStep 5 1 APPROVAL_SENTINEL) "ctx" (some 24)
        (initState basePipeline)).1 ∧
    (execute_approval_step lateApproveCfg (mkStep 5 1 APPROVAL_SENTINEL) "ctx" (some 24)
        (initState basePipeline)).2.2 =
      (execute_approval_step earlyApproveCfg (mkStep 5 1 APPROVAL_SENTINEL) "ctx" (some 24)
        (initState basePipeline)).2.2 ∧
    (execute_approval_step lateApproveCfg (mkStep 5 1 APPROVAL_SENTINEL) "ctx" (some 24)
        (initState basePipeline)).2.1.pipeline =
      (execute_approval_step earlyApproveCfg (mkStep 5 1 APPROVAL_SENTINEL) "ctx" (some 24)
        (initState basePipeline)).2.1.pipeline ∧
    (execute_approval_step lateApproveCfg (mkStep 5 1 APPROVAL_SENTINEL) "ctx" (some 24)
        (initState basePipeline)).2.1.approvals =
      (execute_approval_step earlyApproveCfg (mkStep 5 1 APPROVAL_SENTINEL) "ctx" (some 24)
        (initState basePipeline)).2.1.approvals ∧
    (execute_approval_step lateApproveCfg (mkStep 5 1 APPROVAL_SENTINEL) "ctx" (some 24)
        (initState basePipeline)).2.1.calls =
      (execute_approval_step earlyApproveCfg (mkStep 5 1 APPROVAL_SENTINEL) "ctx" (some 24)
        (initState basePipeline)).2.1.calls := by
  exact c5_reminder_once_decision_honored lateApproveCfg earlyApproveCfg
    (mkStep 5 1 APPROVAL_SENTINEL) "ctx" 24 (initState basePipeline) rfl rfl

/-- C6: a `run_pipeline` run in which every agent call succeeds and every
gate is approved ends with no escaped exception, the pipeline `done`, every
step row `done`, and exactly one `send_message` per agent step, issued in
position order (the order of the rows sorted by `order_index`). -/
theorem c6_all_success_pipeline_done (cfg : RunnerConfig) (pl : Pipeline)
    (rows : List Step) (template : List TemplateStep)
    (hB : BackendAllOk cfg) (hS : StepsAllProceed cfg rows) :
    (run_pipeline cfg rows template (initState pl)).exc = none ∧
    (run_pipeline cfg rows template (initState pl)).st.pipeline.status = .done ∧
    List.Forall₂ (fun a b => b.id = a.id ∧ b.status = StepStatus.done)
      (sortSteps rows) (run_pipeline cfg rows template (initState pl)).steps ∧
    (run_pipeline cfg rows template (initState pl)).st.calls.filterMap BCall.sendStepId =
      ((sortSteps rows).filter (fun s => !(s.agent_name == APPROVAL_SENTINEL))).map Step.id := by
  have hS2 : StepsAllProceed cfg (sortSteps rows) := by
    intro s hs
    exact hS s ((List.perm_insertionSort _ rows).subset hs)
  obtain ⟨h1, h2, h3, h4⟩ := execute_steps_all_success cfg (sortSteps rows) hB
    0 pl.prompt (some template) (initState pl) hS2
  refine ⟨h1, h2, h3, ?_⟩
  rw [run_pipeline] at *
  simpa [initState] using h4

/-- Witness for `c6_all_success_pipeline_done`: developer → gate →
reviewer, everything succeeding. -/
theorem c6_all_success_pipeline_done_witness :
    (run_pipeline allOkCfg [mkStep 1 0 "developer", mkStep 5 1 APPROVAL_SENTINEL, mkStep 3 2 "reviewer"]
      [.agentStep "developer" none, .approvalStep none, .agentStep "reviewer" none]
      (initState basePipeline)).exc = none ∧
    (run_pipeline allOkCfg [mkStep 1 0 "developer", mkStep 5 1 APPROVAL_SENTINEL, mkStep 3 2 "reviewer"]
      [.agentStep "developer" none, .approvalStep none, .agentStep "reviewer" none]
      (initState basePipeline)).st.pipeline.status = .done ∧
    List.Forall₂ (fun a b => b.id = a.id ∧ b.status = StepStatus.done)
      (sortSteps [mkStep 1 0 "developer", mkStep 5 1 APPROVAL_SENTINEL, mkStep 3 2 "reviewer"])
      (run_pipeline allOkCfg [mkStep 1 0 "developer", mkStep 5 1 APPROVAL_SENTINEL, mkStep 3 2 "reviewer"]
        [.agentStep "developer" none, .approvalStep none, .agentStep "reviewer" none]
        (initState basePipeline)).steps ∧
    (run_pipeline allOkCfg [mkStep 1 0 "developer", mkStep 5 1 APPROVAL_SENTINEL, mkStep 3 2 "reviewer"]
      [.agentStep "developer" none, .approvalStep none, .agentStep "reviewer" none]
      (initState basePipeline)).st.calls.filterMap BCall.sendStepId =
      ((sortSteps [mkStep 1 0 "developer", mkStep 5 1 APPROVAL_SENTINEL, mkStep 3 2 "reviewer"]).filter
        (fun s => !(s.agent_name == APPROVAL_SENTINEL))).map Step.id := by
  exact c6_all_success_pipeline_done allOkCfg basePipeline
    [mkStep 1 0 "developer", mkStep 5 1 APPROVAL_SENTINEL, mkStep 3 2 "reviewer"]
    [.agentStep "developer" none, .approvalStep none, .agentStep "reviewer" none]
    (fun n => ⟨rfl, [textPart "done A"], rfl⟩)
    (by intro s hs
        fin_cases hs
        · exact Or.inr ⟨by decide, devProfile, rfl⟩
        · exact Or.inl ⟨rfl, rfl⟩
        · exact Or.inr ⟨by decide, { devProfile with name := "reviewer", opencode_agent := "reviewer" }, rfl⟩)

/-- C7: resuming a pipeline whose step rows are all `done` marks the
pipeline `done` with zero backend calls and no exception. -/
theorem c7_resume_all_done_no_calls (cfg : RunnerConfig) (pl : Pipeline)
    (rows : List Step) (hdone : ∀ s ∈ rows, s.status = .done) :
    (resume_pipeline cfg rows (initState pl)).st.pipeline.status = .done ∧
    (resume_pipeline cfg rows (initState pl)).st.calls = [] ∧
    (resume_pipeline cfg rows (initState pl)).exc = none := by
  have hrem : (sortSteps rows).filter (fun s => !(s.status == StepStatus.done)) = [] := by
    rw [List.filter_eq_nil_iff]
    intro a ha
    have := hdone a ((List.perm_insertionSort _ rows).subset ha)
    simp [this]
  simp only [resume_pipeline, hrem]
  simp [initState]

/-- Witness for `c7_resume_all_done_no_calls`. -/
theorem c7_resume_all_done_no_calls_witness :
    (resume_pipeline allOkCfg [doneRow 1 0 1 "prev output"] (initState basePipeline)).st.pipeline.status = .done ∧
    (resume_pipeline allOkCfg [doneRow 1 0 1 "prev output"] (initState basePipeline)).st.calls = [] ∧
    (resume_pipeline allOkCfg [doneRow 1 0 1 "prev output"] (initState basePipeline)).exc = none := by
  exact c7_resume_all_done_no_calls allOkCfg basePipeline [doneRow 1 0 1 "prev output"]
    (by intro s hs; fin_cases hs; rfl)

/-- When the head step is an agent step with a resolvable agent and its
session is created, the first two backend calls of the run are its
`create_session` and a `send_message` carrying the prompt built from the
current chained prompt. -/
theorem execute_steps_first_two_calls (cfg : RunnerConfig) (i : Nat) (s : Step)
    (rest : List Step) (p : String) (tpl : Option (List TemplateStep))
    (st : EngineState) (prof : AgentProfile)
    (hsent : (s.agent_name == APPROVAL_SENTINEL) = false)
    (hreg : cfg.registry s.agent_name = some prof)
    (hcr : (cfg.backend st.agentCallCount).createError = none) :
    ∃ l, (execute_steps cfg i (s :: rest) p tpl st).st.calls =
      st.calls ++
        [.createSession s.id (s.agent_name ++ "-" ++ toString s.id),
         .sendMessage s.id st.agentCallCount (build_prompt p prof st.pipeline.working_dir)
           prof.opencode_agent (pyOr s.model prof.default_model)] ++ l := by
  cases hsend : (cfg.backend st.agentCallCount).send with
  | success parts =>
    rw [execute_steps_cons_agent_success cfg i s rest p tpl st prof parts hsent hreg hcr hsend]
    simp only []
    obtain ⟨t, ht⟩ := execute_steps_calls_prefix cfg rest (i + 1)
      (chainedPrompt s.agent_name parts) tpl (agentSuccessState st s prof p parts)
    refine ⟨[.deleteSession s.id st.agentCallCount] ++ t, ?_⟩
    rw [← ht]
    simp only [agentSuccessState, agentCallTriple]
    simp [List.append_assoc]
  | clientError m =>
    rw [execute_steps_cons_agent_clientError cfg i s rest p tpl st prof m hsent hreg hcr hsend]
    refine ⟨[.deleteSession s.id st.agentCallCount], ?_⟩
    simp only [agentFailState, agentCallTriple]
    simp [List.append_assoc]
  | timeout =>
    cases habort : (cfg.backend st.agentCallCount).abortError with
    | none =>
      rw [execute_steps_cons_agent_timeout cfg i s rest p tpl st prof hsent hreg hcr hsend habort]
      refine ⟨[.abortSession s.id st.agentCallCount, .deleteSession s.id st.agentCallCount], ?_⟩
      simp only [agentFailState, agentTimeoutCalls]
      simp [List.append_assoc]
    | some m =>
      simp only [execute_steps, run_step, runStepCleanup, hsent, hcr, hsend, habort,
        Bool.false_eq_true, if_false]
      refine ⟨[.abortSession s.id st.agentCallCount, .deleteSession s.id st.agentCallCount], ?_⟩
      simp [hreg, List.append_assoc]

/-- C8, amended: resuming a pipeline whose remaining (non-`done`) steps are
agent steps with resolvable agents, against a backend on which every call
succeeds, issues exactly one `send_message` per remaining step, in position
order; the first resumed call's prompt is built from the reconstruction
`resumePrompt` — the highest-id `Handoff` of the *last done step in
position order that has any handoff* (context header when it has structured
metadata, else its raw content), falling back to the pipeline's original
prompt — and the pipeline finishes `done` with no escaped exception. -/
theorem c8_resume_mixed_steps (cfg : RunnerConfig) (pl : Pipeline)
    (rows : List Step) (s0 : Step) (rrest : List Step) (prof : AgentProfile)
    (hB : BackendAllOk cfg)
    (hrem : (sortSteps rows).filter (fun s => !(s.status == StepStatus.done)) = s0 :: rrest)
    (hagents : ∀ s ∈ s0 :: rrest,
      s.agent_name ≠ APPROVAL_SENTINEL ∧ ∃ q, cfg.registry s.agent_name = some q)
    (hreg : cfg.registry s0.agent_name = some prof) :
    (resume_pipeline cfg rows (initState pl)).st.calls.filterMap BCall.sendStepId =
      (s0 :: rrest).map Step.id ∧
    ((resume_pipeline cfg rows (initState pl)).st.calls.filterMap BCall.sendPrompt).head? =
      some (build_prompt (resumePrompt (sortSteps rows) pl.prompt) prof pl.working_dir) ∧
    (resume_pipeline cfg rows (initState pl)).exc = none ∧
    (resume_pipeline cfg rows (initState pl)).st.pipeline.status = .done := by
  have hS : StepsAllProceed cfg (s0 :: rrest) := by
    intro s hs
    exact Or.inr (hagents s hs)
  obtain ⟨h1, h2, h3, h4⟩ := execute_steps_all_success cfg (s0 :: rrest) hB
    0 (resumePrompt (sortSteps rows) pl.prompt) none (initState pl) hS
  have hs0 : (s0.agent_name == APPROVAL_SENTINEL) = false := by
    have := (hagents s0 (List.mem_cons_self s0 rrest)).1
    simp [this]
  obtain ⟨l, hl⟩ := execute_steps_first_two_calls cfg 0 s0 rrest
    (resumePrompt (sortSteps rows) pl.prompt) none (initState pl) prof hs0 hreg
    (hB (initState pl).agentCallCount).1
  have hres : resume_pipeline cfg rows (initState pl) =
      execute_steps cfg 0 (s0 :: rrest) (resumePrompt (sortSteps rows) pl.prompt)
        none (initState pl) := by
    simp only [resume_pipeline, hrem]
    simp [initState]
  have hfilter : (s0 :: rrest).filter (fun s => !(s.agent_name == APPROVAL_SENTINEL)) =
      s0 :: rrest := by
    rw [List.filter_eq_self]
    intro a ha
    have := (hagents a ha).1
    simp [this]
  rw [hres]
  refine ⟨?_, ?_, h1, h2⟩
  · rw [h4, hfilter]
    simp [initState]
  · rw [hl]
    simp [initState, BCall.sendPrompt]

/-- C8, counterexample: with handoff identities out of position order, the
claim's selector — the most recent handoff among all done steps, ties
broken by highest identity — picks content `"A"` (id 10 on the first done
step), but the code's first resumed backend call carries `"B"`, the
highest-id handoff of the *last* done step in position order. -/
theorem c8_resume_prompt_counterexample :
    specResumePrompt (sortSteps c8Rows) basePipeline.prompt = "A" ∧
    (resume_pipeline resumeOkCfg c8Rows (initState basePipeline)).st.calls.filterMap
      BCall.sendPrompt = ["B"] ∧
    ("A" : String) ≠ "B" := by
  decide

/-- Witness for `c8_resume_mixed_steps` at a concrete mixed pipeline. -/
theorem c8_resume_mixed_steps_witness :
    (resume_pipeline resumeOkCfg c8Rows (initState basePipeline)).st.calls.filterMap
      BCall.sendStepId = (mkStep 7 2 "developer" :: []).map Step.id ∧
    ((resume_pipeline resumeOkCfg c8Rows (initState basePipeline)).st.calls.filterMap
      BCall.sendPrompt).head? =
      some (build_prompt (resumePrompt (sortSteps c8Rows) basePipeline.prompt)
        devProfile basePipeline.working_dir) ∧
    (resume_pipeline resumeOkCfg c8Rows (initState basePipeline)).exc = none ∧
    (resume_pipeline resumeOkCfg c8Rows (initState basePipeline)).st.pipeline.status = .done := by
  exact c8_resume_mixed_steps resumeOkCfg basePipeline c8Rows (mkStep 7 2 "developer") []
    devProfile
    (fun n => ⟨rfl, [textPart "resumed output"], rfl⟩)
    (by decide)
    (by intro s hs
        fin_cases hs
        exact ⟨by decide, devProfile, rfl⟩)
    rfl

end TheAgency
